import Mathlib

/-!
Verification of the deep-analysis orchestration and inline-citation pipeline of
the art-style-attribution-lab backend
(`backend/app/services/deep_analysis_service.py`,
`backend/app/services/llm_client.py`, `backend/app/services/prompts.py`).

Conventions of the shallow embedding:
* Python strings are `String` / `List Char`; Python floats are modelled with
  exact rationals (`Rat`); Python dicts holding JSON data are the `Json`
  inductive below (an association list, later duplicate keys overwriting
  earlier ones, as for Python `dict`).
* Fallible Python code (functions that may raise) returns `Option`/`Except`.
* Outbound LLM/vision HTTP calls are modelled as oracles
  `GenCall → Except LLMError String`: `.ok s` is the string the provider
  returns (already stripped of reasoning tags by the provider wrapper),
  `.error e` models a raised `LLMError`.
* Image-dependent feature extraction (k-means colour clustering, saliency,
  symmetry — numpy/scipy code over decoded pixels) is modelled by passing the
  extracted feature records as inputs; all code consuming those records is
  embedded from the source.
* Recursions over text use an explicit fuel argument where Lean's structural
  recursion does not apply; every wrapper passes fuel that exceeds the number
  of scanning steps, so the fueled function equals the Python loop.
-/

namespace ArtLab

/-- JSON values as returned by Python's `json.loads`: objects are association
lists in insertion order (later duplicate keys overwrite earlier ones, as for
Python `dict`).  Numbers are modelled as exact rationals: every JSON numeric
literal denotes a rational, and no claim distinguishes Python `int` from
`float`.  (The non-standard `NaN`/`Infinity` literals accepted by Python's
parser are not modelled; no claim involves them.) -/
inductive Json where
  | null : Json
  | bool (b : Bool) : Json
  | num (q : Rat) : Json
  | str (s : String) : Json
  | arr (elems : List Json) : Json
  | obj (fields : List (String × Json)) : Json
  deriving Repr

/-- JSON whitespace as skipped by Python's `json` scanner (`' \t\n\r'`). -/
def jsonWs (c : Char) : Bool :=
  c = ' ' || c = '\t' || c = '\n' || c = '\r'

def skipWs (cs : List Char) : List Char :=
  cs.dropWhile jsonWs

def isDigitC (c : Char) : Bool :=
  '0' ≤ c && c ≤ '9'

def digitVal (c : Char) : Nat :=
  c.toNat - 48

def digitsToNat (ds : List Char) : Nat :=
  ds.foldl (fun acc c => acc * 10 + digitVal c) 0

def hexVal (c : Char) : Option Nat :=
  if isDigitC c then some (c.toNat - 48)
  else if 'a' ≤ c && c ≤ 'f' then some (c.toNat - 87)
  else if 'A' ≤ c && c ≤ 'F' then some (c.toNat - 55)
  else none

def hex4 (a b c d : Char) : Option Nat :=
  match hexVal a, hexVal b, hexVal c, hexVal d with
  | some x, some y, some z, some u => some (((x * 16 + y) * 16 + z) * 16 + u)
  | _, _, _, _ => none

/-- Single-character JSON string escapes (`\" \\ \/ \b \f \n \r \t`). -/
def escChar (e : Char) : Option Char :=
  if e = '"' then some '"'
  else if e = '\\' then some '\\'
  else if e = '/' then some '/'
  else if e = 'b' then some '\x08'
  else if e = 'f' then some '\x0c'
  else if e = 'n' then some '\n'
  else if e = 'r' then some '\r'
  else if e = 't' then some '\t'
  else none

/-- Stand-in for a lone UTF-16 surrogate: Python's `str` can hold lone
surrogates produced by `\uXXXX` escapes, Lean's `Char` cannot, so the
replacement character is used.  No claim involves lone surrogates. -/
def surrogateStandIn : Char := '�'

/-- Exponent tail of a JSON number: `[eE][-+]?\d+`, returning the (signed)
exponent and the rest; if the tail is not well-formed nothing is consumed,
exactly as for the optional group of Python's `NUMBER_RE`. -/
def parseExpSign (t orig : List Char) : Int × List Char :=
  let (sgn, t2) : Int × List Char :=
    match t with
    | '+' :: r => (1, r)
    | '-' :: r => (-1, r)
    | _ => (1, t)
  let ds := t2.takeWhile isDigitC
  if ds = [] then (0, orig) else (sgn * (digitsToNat ds : Int), t2.drop ds.length)

def parseExp (cs : List Char) : Int × List Char :=
  match cs with
  | 'e' :: t => parseExpSign t cs
  | 'E' :: t => parseExpSign t cs
  | _ => (0, cs)

/-- Fraction tail: `(\.\d+)?`; nothing is consumed when the dot is not
followed by a digit. -/
def parseFrac (cs : List Char) : List Char × List Char :=
  match cs with
  | '.' :: t =>
    let fd := t.takeWhile isDigitC
    if fd = [] then ([], cs) else (fd, t.drop fd.length)
  | _ => ([], cs)

/-- JSON number per Python's `NUMBER_RE`:
`(-?(?:0|[1-9]\d*))(\.\d+)?([eE][-+]?\d+)?`.  A leading `0` is only the
integer part by itself (so `01` parses as `0` with `1` left over, which the
callers then reject — as in CPython). -/
def parseNumber (cs : List Char) : Option (Rat × List Char) :=
  let (neg, cs1) : Bool × List Char :=
    match cs with
    | '-' :: t => (true, t)
    | _ => (false, cs)
  match cs1 with
  | [] => none
  | c :: _ =>
    if ¬ isDigitC c then none
    else
      let intDigits := if c = '0' then ['0'] else cs1.takeWhile isDigitC
      let cs2 := cs1.drop intDigits.length
      let (fracDigits, cs3) := parseFrac cs2
      let (e, cs4) := parseExp cs3
      let value : Rat :=
        if fracDigits.isEmpty ∧ e = 0 then
          (digitsToNat intDigits : Rat)
        else
          let mant : Rat :=
            (digitsToNat intDigits : Rat) +
              (digitsToNat fracDigits : Rat) / ((10 : Rat) ^ fracDigits.length)
          if 0 ≤ e then mant * ((10 : Rat) ^ e.toNat)
          else mant / ((10 : Rat) ^ (-e).toNat)
      some ((if neg then -value else value), cs4)

/-- Replace-or-append insertion into an object's field list: Python `dict`
assignment semantics for duplicate keys. -/
def objInsert (fields : List (String × Json)) (k : String) (v : Json) :
    List (String × Json) :=
  match fields with
  | [] => [(k, v)]
  | (k', v') :: rest =>
    if k' = k then (k, v) :: rest else (k', v') :: objInsert rest k v

/-- Body of a JSON string after the opening quote (strict mode: raw control
characters below 0x20 are rejected, as by Python's default `json.loads`). -/
def pStr : Nat → List Char → List Char → Option (String × List Char)
  | 0, _, _ => none
  | fuel + 1, acc, cs =>
    match cs with
    | [] => none
    | c :: t =>
      if c = '"' then some (String.mk acc.reverse, t)
      else if c = '\\' then
        match t with
        | 'u' :: h1 :: h2 :: h3 :: h4 :: t3 =>
          match hex4 h1 h2 h3 h4 with
          | none => none
          | some n =>
            if 0xD800 ≤ n ∧ n ≤ 0xDBFF then
              match t3 with
              | '\\' :: 'u' :: g1 :: g2 :: g3 :: g4 :: t4 =>
                match hex4 g1 g2 g3 g4 with
                | some m =>
                  if 0xDC00 ≤ m ∧ m ≤ 0xDFFF then
                    pStr fuel
                      (Char.ofNat (0x10000 + (n - 0xD800) * 0x400 + (m - 0xDC00)) :: acc) t4
                  else pStr fuel (surrogateStandIn :: acc) t3
                | none => pStr fuel (surrogateStandIn :: acc) t3
              | _ => pStr fuel (surrogateStandIn :: acc) t3
            else if 0xDC00 ≤ n ∧ n ≤ 0xDFFF then
              pStr fuel (surrogateStandIn :: acc) t3
            else pStr fuel (Char.ofNat n :: acc) t3
        | e :: t2 =>
          match escChar e with
          | some d => pStr fuel (d :: acc) t2
          | none => none
        | [] => none
      else if c.toNat < 0x20 then none
      else pStr fuel (c :: acc) t

mutual

/-- JSON value parser (the grammar implemented by Python's `json.loads`),
fueled; callers pass fuel exceeding the number of scanning steps. -/
def pValue : Nat → List Char → Option (Json × List Char)
  | 0, _ => none
  | fuel + 1, cs =>
    match cs with
    | '{' :: t => pMembersStart fuel (skipWs t)
    | '[' :: t => pItemsStart fuel (skipWs t)
    | '"' :: t => (pStr fuel [] t).map (fun p => (Json.str p.1, p.2))
    | 't' :: 'r' :: 'u' :: 'e' :: t => some (Json.bool true, t)
    | 'f' :: 'a' :: 'l' :: 's' :: 'e' :: t => some (Json.bool false, t)
    | 'n' :: 'u' :: 'l' :: 'l' :: t => some (Json.null, t)
    | _ => (parseNumber cs).map (fun p => (Json.num p.1, p.2))

def pMembersStart : Nat → List Char → Option (Json × List Char)
  | 0, _ => none
  | fuel + 1, cs =>
    match cs with
    | '}' :: t => some (Json.obj [], t)
    | _ => pMembers fuel cs []

def pMembers : Nat → List Char → List (String × Json) → Option (Json × List Char)
  | 0, _, _ => none
  | fuel + 1, cs, acc =>
    match cs with
    | '"' :: t =>
      match pStr fuel [] t with
      | none => none
      | some (k, r1) =>
        match skipWs r1 with
        | ':' :: r2 =>
          match pValue fuel (skipWs r2) with
          | none => none
          | some (v, r3) =>
            match skipWs r3 with
            | ',' :: r4 => pMembers fuel (skipWs r4) (objInsert acc k v)
            | '}' :: r4 => some (Json.obj (objInsert acc k v), r4)
            | _ => none
        | _ => none
    | _ => none

def pItemsStart : Nat → List Char → Option (Json × List Char)
  | 0, _ => none
  | fuel + 1, cs =>
    match cs with
    | ']' :: t => some (Json.arr [], t)
    | _ => pItems fuel cs []

def pItems : Nat → List Char → List Json → Option (Json × List Char)
  | 0, _, _ => none
  | fuel + 1, cs, acc =>
    match pValue fuel cs with
    | none => none
    | some (v, r1) =>
      match skipWs r1 with
      | ',' :: r2 => pItems fuel (skipWs r2) (acc ++ [v])
      | ']' :: r2 => some (Json.arr (acc ++ [v]), r2)
      | _ => none

end

/-- Python `json.loads`: skip leading whitespace, parse one value, skip
trailing whitespace, and reject any extra data. -/
def jsonLoads (s : String) : Option Json :=
  match pValue (4 * s.length + 16) (skipWs s.data) with
  | some (j, rest) => if skipWs rest = [] then some j else none
  | none => none

/-! Embedding of `extract_json_from_response`
(`deep_analysis_service.py`, lines 45-100). -/

/-- Python `re`'s `\s` on the ASCII range (`[ \t\n\r\f\v]`); the further
Unicode whitespace characters matched by `\s` do not occur in any claim. -/
def pySpace (c : Char) : Bool :=
  c = ' ' || c = '\t' || c = '\n' || c = '\r' || c = '\x0b' || c = '\x0c'

def backquote : Char := Char.ofNat 96

/-- Python `str.strip()` (ASCII whitespace; the further Unicode whitespace
stripped by Python does not occur in any claim). -/
def pyStrip (cs : List Char) : List Char :=
  ((cs.dropWhile pySpace).reverse.dropWhile pySpace).reverse


/-- Lazy search for the closing part of the code-block pattern
`(\{[\s\S]*?\})\s*` followed by a three-backquote fence: the shortest
candidate ending in `}` whose remainder, after whitespace, starts with the
fence — exactly what the reluctant quantifier yields. -/
def fenceClose (acc : List Char) : List Char → Option (List Char × List Char)
  | [] => none
  | c :: t =>
    let acc2 := acc ++ [c]
    if c = '}' ∧ (t.dropWhile pySpace).take 3 = [backquote, backquote, backquote] then
      some (acc2, (t.dropWhile pySpace).drop 3)
    else fenceClose acc2 t

/-- One attempt of the code-block regex
`` ```(?:json)?\s*(\{[\s\S]*?\})\s*``` `` at the head of `cs`; on success
returns the captured group and the rest of the text after the whole match. -/
def fenceMatchAt (cs : List Char) : Option (List Char × List Char) :=
  match cs with
  | c1 :: c2 :: c3 :: r0 =>
    if c1 = backquote ∧ c2 = backquote ∧ c3 = backquote then
      let r1 : List Char :=
        match r0 with
        | 'j' :: 's' :: 'o' :: 'n' :: t => t
        | _ => r0
      match r1.dropWhile pySpace with
      | '{' :: t => fenceClose ['{'] t
      | _ => none
    else none
  | _ => none

/-- `re.findall` scan for the code-block pattern: leftmost, non-overlapping,
resuming after the end of each full match. -/
def fenceScanF : Nat → List Char → List (List Char)
  | 0, _ => []
  | fuel + 1, cs =>
    match fenceMatchAt cs with
    | some (grp, rest) => grp :: fenceScanF fuel rest
    | none =>
      match cs with
      | [] => []
      | _ :: t => fenceScanF fuel t

def codeBlockGroups (cs : List Char) : List (List Char) :=
  fenceScanF (cs.length + 1) cs

/-- The `for match in matches: try json.loads(match) ... continue` loop. -/
def firstJson : List (List Char) → Option Json
  | [] => none
  | g :: rest =>
    match jsonLoads (String.mk g) with
    | some j => some j
    | none => firstJson rest

/-- The string-aware brace-depth loop of `extract_json_from_response`
(lines 72-98): state `(count, in_string, escape_next)`, slice accumulated in
`acc`; when the depth returns to zero the slice is fed to `json.loads`, and a
parse failure there breaks out (returning nothing). -/
def braceLoop (acc : List Char) (rest : List Char) (count : Int)
    (inString escapeNext : Bool) : Option Json :=
  match rest with
  | [] => none
  | c :: t =>
    let acc2 := acc ++ [c]
    if escapeNext then braceLoop acc2 t count inString false
    else if c = '\\' then braceLoop acc2 t count inString true
    else if c = '"' then braceLoop acc2 t count (!inString) false
    else if ¬ inString ∧ c = '{' then braceLoop acc2 t (count + 1) inString false
    else if ¬ inString ∧ c = '}' then
      if count - 1 = 0 then jsonLoads (String.mk acc2)
      else braceLoop acc2 t (count - 1) inString false
    else braceLoop acc2 t count inString false

/-- Third stage of `extract_json_from_response`: brace matching from the
first `{` in the text (nothing when there is none). -/
def braceExtract (cs : List Char) : Option Json :=
  match cs.dropWhile (· ≠ '{') with
  | [] => none
  | tail => braceLoop [] tail 0 false false

/-- Embedding of `extract_json_from_response`
(`deep_analysis_service.py`, lines 45-100): direct parse of the stripped
text, then fenced code-block candidates in order, then brace matching; `none`
models Python's `None`. -/
def extract_json_from_response (text : String) : Option Json :=
  if text = "" then none
  else
    match jsonLoads (String.mk (pyStrip text.data)) with
    | some j => some j
    | none =>
      match firstJson (codeBlockGroups text.data) with
      | some j => some j
      | none => braceExtract text.data

/-! Embedding of the inline marker parser
(`deep_analysis_service.py`, lines 105-190).

`MARKER_PATTERN = re.compile(r'\{(\w+)\|([^}|]+)(?:\|([^}]+))?\}')`.
The regex is deterministic: `\w+` (greedy) must be followed by `|`, and since
`|` is not a word character no backtracking into the run can succeed, so the
type group is exactly the maximal word run; likewise the value group
(`[^}|]+`) is the maximal run up to the next `|` or `}`, and the label group
(`[^}]+`) the maximal run up to the next `}`.  The embedding below implements
exactly this with `takeWhile`/`dropWhile`. -/

/-- Python `\w` restricted to ASCII (letters, digits, underscore).  Python's
`re` also counts non-ASCII word characters; every marker type occurring in
the repository (color/technique/composition/mood/era/artist and the claims'
inputs) is ASCII, and the structural theorems below hold for any alphabet of
word characters that excludes the marker delimiters. -/
def pyWord (c : Char) : Bool :=
  c.isAlphanum || c = '_'

/-- Character class `[^}|]` of the value group. -/
def valueChar (c : Char) : Bool :=
  c ≠ '}' && c ≠ '|'

/-- Character class `[^}]` of the label group. -/
def labelChar (c : Char) : Bool :=
  c ≠ '}'

/-- A successful match of `MARKER_PATTERN` at the head of the text: the three
capture groups and the text remaining after the whole match. -/
structure MarkerHit where
  mtype : List Char
  mvalue : List Char
  mlabel : Option (List Char)
  after : List Char
  deriving Repr

/-- Number of characters covered by the whole match. -/
def MarkerHit.consumed (h : MarkerHit) : Nat :=
  match h.mlabel with
  | none => h.mtype.length + h.mvalue.length + 3
  | some l => h.mtype.length + h.mvalue.length + l.length + 4

/-- One attempt of `MARKER_PATTERN` at the head of `cs` (the deterministic
reading of the regex explained above). -/
def markerMatch (cs : List Char) : Option MarkerHit :=
  match cs with
  | '{' :: rest =>
    let t := rest.takeWhile pyWord
    if t.isEmpty then none
    else
      match rest.dropWhile pyWord with
      | '|' :: rest2 =>
        let v := rest2.takeWhile valueChar
        if v.isEmpty then none
        else
          match rest2.dropWhile valueChar with
          | '}' :: after => some ⟨t, v, none, after⟩
          | '|' :: rest3 =>
            let l := rest3.takeWhile labelChar
            if l.isEmpty then none
            else
              match rest3.dropWhile labelChar with
              | '}' :: after => some ⟨t, v, some l, after⟩
              | _ => none
          | _ => none
      | _ => none
  | _ => none

/-- Decimal digits of a natural number, as Python's `str(int)`. -/
def natDigitsF : Nat → Nat → List Char
  | 0, _ => []
  | fuel + 1, n =>
    if n < 10 then [Char.ofNat (48 + n)]
    else natDigitsF fuel (n / 10) ++ [Char.ofNat (48 + n % 10)]

def natDigits (n : Nat) : List Char :=
  natDigitsF (n + 1) n

/-- The `[[MARKER_marker_<k>]]` placeholder substituted into `cleaned_text`. -/
def placeholder (cnt : Nat) : List Char :=
  "[[MARKER_marker_".data ++ natDigits cnt ++ "]]".data

/-- Python `str.lower()` on the ASCII range (all marker types in the
repository are ASCII). -/
def pyLower (cs : List Char) : List Char :=
  cs.map Char.toLower

/-- Python `str.startswith`. -/
def pyStartsWith (s pre : String) : Bool :=
  List.isPrefixOf pre.data s.data

/-- `MARKER_TYPES.get(marker_type, {"icon": "info", "css_class":
"marker-generic"})` — the fixed icon/css lookup table. -/
def markerConfig (t : String) : String × String :=
  if t = "color" then ("palette", "marker-color")
  else if t = "technique" then ("brush", "marker-technique")
  else if t = "composition" then ("layers", "marker-composition")
  else if t = "mood" then ("heart", "marker-mood")
  else if t = "era" then ("clock", "marker-era")
  else if t = "artist" then ("user", "marker-artist")
  else ("info", "marker-generic")

/-- One extracted marker record (the dict built by `replace_marker`). -/
structure InlineMarker where
  id : String
  type : String
  value : String
  label : String
  icon : String
  css_class : String
  position : Nat
  deriving Repr, DecidableEq

/-- The marker dict built from the `idx`-th match at offset `pos`. -/
def mkInlineMarker (idx pos : Nat) (h : MarkerHit) : InlineMarker :=
  let ty := String.mk (pyLower h.mtype)
  let v := String.mk (pyStrip h.mvalue)
  let lab :=
    match h.mlabel with
    | some l => String.mk (pyStrip l)
    | none => v
  let cfg := markerConfig ty
  { id := String.mk ("marker_".data ++ natDigits idx),
    type := ty, value := v, label := lab,
    icon := cfg.1, css_class := cfg.2, position := pos }

/-- The HTML replacement produced by `to_html_marker`: colour markers whose
value starts with `#` get a swatch span, everything else the generic span. -/
def htmlMarker (h : MarkerHit) : List Char :=
  let ty := String.mk (pyLower h.mtype)
  let v := String.mk (pyStrip h.mvalue)
  let lab :=
    match h.mlabel with
    | some l => String.mk (pyStrip l)
    | none => v
  let cfg := markerConfig ty
  if ty = "color" ∧ pyStartsWith v "#" then
    ("<span class=\"inline-marker " ++ cfg.2 ++ "\" data-type=\"" ++ ty
      ++ "\" data-value=\"" ++ v ++ "\"><span class=\"color-swatch\" style=\"background-color:"
      ++ v ++ "\"></span>" ++ lab ++ "</span>").data
  else
    ("<span class=\"inline-marker " ++ cfg.2 ++ "\" data-type=\"" ++ ty
      ++ "\" data-value=\"" ++ v ++ "\" data-icon=\"" ++ cfg.1 ++ "\">" ++ lab ++ "</span>").data

/-- The `re.sub`/`finditer` scan: leftmost matches, non-overlapping, the scan
resuming after the end of each match, advancing one character on failure.
Returns the matches with their character offsets in the original text. -/
def scanMarkersF : Nat → List Char → Nat → List (Nat × MarkerHit)
  | 0, _, _ => []
  | fuel + 1, cs, pos =>
    match markerMatch cs with
    | some h => (pos, h) :: scanMarkersF fuel h.after (pos + h.consumed)
    | none =>
      match cs with
      | [] => []
      | _ :: t => scanMarkersF fuel t (pos + 1)

def scanFrom (cs : List Char) (pos : Nat) : List (Nat × MarkerHit) :=
  scanMarkersF (cs.length + 1) cs pos

def scanMarkers (cs : List Char) : List (Nat × MarkerHit) :=
  scanFrom cs 0

/-- The same scan producing `cleaned_text`: matched spans replaced by
placeholders (the counter is the running marker index). -/
def cleanedGoF : Nat → List Char → Nat → List Char
  | 0, _, _ => []
  | fuel + 1, cs, cnt =>
    match markerMatch cs with
    | some h => placeholder cnt ++ cleanedGoF fuel h.after (cnt + 1)
    | none =>
      match cs with
      | [] => []
      | c :: t => c :: cleanedGoF fuel t cnt

def cleanedGo (cs : List Char) (cnt : Nat) : List Char :=
  cleanedGoF (cs.length + 1) cs cnt

/-- The same scan producing `html_text`: matched spans replaced by inline
HTML spans. -/
def htmlGoF : Nat → List Char → List Char
  | 0, _ => []
  | fuel + 1, cs =>
    match markerMatch cs with
    | some h => htmlMarker h ++ htmlGoF fuel h.after
    | none =>
      match cs with
      | [] => []
      | c :: t => c :: htmlGoF fuel t

def htmlGo (cs : List Char) : List Char :=
  htmlGoF (cs.length + 1) cs

/-! A small-step view of `MARKER_PATTERN`, used to reason about residual
matches: `runT` reads the type group after an opening `{` (`seen` records
whether at least one word character has been read), `runV` the value group
after the first `|`, `runL` the label group after the second `|`; each
returns whether the regex accepts somewhere at this position.
`hasMarkerAt cs` decides whether `MARKER_PATTERN` matches at the head of
`cs`; the theorems below prove it agrees with `markerMatch`. -/

def runL (seen : Bool) : List Char → Bool
  | [] => false
  | c :: t => if c = '}' then seen else runL true t

def runV (seen : Bool) : List Char → Bool
  | [] => false
  | c :: t =>
    if c = '}' then seen
    else if c = '|' then seen && runL false t
    else runV true t

def runT (seen : Bool) : List Char → Bool
  | [] => false
  | c :: t =>
    if pyWord c then runT true t
    else if c = '|' && seen then runV false t
    else false

def hasMarkerAt : List Char → Bool
  | '{' :: t => runT false t
  | _ => false

/-- What the regex can still accept after the greedy label run: a closing
brace. -/
def closeHead : List Char → Bool
  | '}' :: _ => true
  | _ => false

/-- What the regex can accept after the greedy value run: a closing brace, or
a second bar followed by an accepting label tail. -/
def vNext : List Char → Bool
  | '}' :: _ => true
  | '|' :: r2 => runL false r2
  | _ => false

/-- What the regex can accept after the greedy type run: a bar followed by an
accepting value tail. -/
def tNext : List Char → Bool
  | '|' :: r2 => runV false r2
  | _ => false

/-- The parse result dict (`RichSummary` of the specification). -/
structure RichSummary where
  raw_text : String
  cleaned_text : String
  markers : List InlineMarker
  html_text : String
  marker_count : Nat
  deriving Repr

/-- Embedding of `parse_inline_markers`
(`deep_analysis_service.py`, lines 119-185): one regex sweep collects the
markers (sequential ids, positions = match offsets) and builds
`cleaned_text`; a second sweep with the same pattern builds `html_text`;
`marker_count` is the number of collected markers. -/
def parse_inline_markers (text : String) : RichSummary :=
  let ms := (scanMarkers text.data).enum.map (fun p => mkInlineMarker p.1 p.2.1 p.2.2)
  { raw_text := text,
    cleaned_text := String.mk (cleanedGo text.data 0),
    markers := ms,
    html_text := String.mk (htmlGo text.data),
    marker_count := ms.length }

/-! Embedding of `clean_think_tags` (`llm_client.py`, lines 20-36): four
sequential case-insensitive `re.sub` deletions, then `\n{3,}` collapsed to
two newlines, then `strip()`. -/

/-- Consume a (lowercase) pattern case-insensitively at the head of the text,
returning the rest. -/
def ciHead : List Char → List Char → Option (List Char)
  | [], cs => some cs
  | _ :: _, [] => none
  | p :: ps, c :: cs => if c.toLower = p then ciHead ps cs else none

/-- Earliest case-insensitive occurrence of the (lowercase) pattern; returns
the text after it — the reluctant `[\s\S]*?` followed by the literal closing
tag. -/
def findCIAfter (pat : List Char) : List Char → Option (List Char)
  | [] =>
    match ciHead pat [] with
    | some rest => some rest
    | none => none
  | c :: t =>
    match ciHead pat (c :: t) with
    | some rest => some rest
    | none => findCIAfter pat t

/-- Match `<word[^>]*>` case-insensitively at the head, returning the rest
after `>` (the greedy `[^>]*` stops at the first `>`). -/
def openTagMatch (word : List Char) (cs : List Char) : Option (List Char) :=
  match ciHead ('<' :: word) cs with
  | none => none
  | some r1 =>
    match r1.dropWhile (· ≠ '>') with
    | '>' :: r2 => some r2
    | _ => none

/-- Match `<word[^>]*>[\s\S]*?closeTag` at the head, returning the rest after
the whole match. -/
def thinkBlockMatch (word closeTag : List Char) (cs : List Char) : Option (List Char) :=
  match openTagMatch word cs with
  | none => none
  | some r2 => findCIAfter closeTag r2

/-- Match `<word[^>]*>[\s\S]*$` at the head: the match runs to the end of the
string. -/
def thinkOpenMatch (word : List Char) (cs : List Char) : Option (List Char) :=
  (openTagMatch word cs).map (fun _ => ([] : List Char))

/-- `re.sub(pattern, '', text)`: scan left to right, deleting every
non-overlapping match, resuming after each match's end. -/
def subDeleteF (m : List Char → Option (List Char)) : Nat → List Char → List Char
  | 0, _ => []
  | fuel + 1, cs =>
    match m cs with
    | some rest => subDeleteF m fuel rest
    | none =>
      match cs with
      | [] => []
      | c :: t => c :: subDeleteF m fuel t

def subDelete (m : List Char → Option (List Char)) (cs : List Char) : List Char :=
  subDeleteF m (cs.length + 1) cs

/-- `re.sub(r'\n{3,}', '\n\n', text)`: every maximal run of three or more
newlines becomes exactly two (`n` counts pending newlines). -/
def collapseNl : List Char → Nat → List Char
  | [], n => List.replicate (min n 2) '\n'
  | c :: t, n =>
    if c = '\n' then collapseNl t (n + 1)
    else List.replicate (min n 2) '\n' ++ c :: collapseNl t 0

def thinkWord : List Char := "think".data
def thinkingWord : List Char := "thinking".data
def closeThink : List Char := "</think>".data
def closeThinking : List Char := "</thinking>".data

/-- Embedding of `clean_think_tags` (`llm_client.py`, lines 20-36).  Note
that the `<think[^>]*>` patterns also match `<thinking ...>` openers, since
`ing` is absorbed by `[^>]*`. -/
def clean_think_tags (text : String) : String :=
  if text = "" then ""
  else
    let s1 := subDelete (thinkBlockMatch thinkWord closeThink) text.data
    let s2 := subDelete (thinkBlockMatch thinkingWord closeThinking) s1
    let s3 := subDelete (thinkOpenMatch thinkWord) s2
    let s4 := subDelete (thinkOpenMatch thinkingWord) s3
    String.mk (pyStrip (collapseNl s4 0))

/-! Embedding of the LLM-facing service layer
(`llm_client.py` provider plumbing and `deep_analysis_service.py`,
lines 694-1286). -/

/-- The exception type raised by failing provider calls
(`llm_client.LLMError`); `msg` is `str(e)`. -/
structure LLMError where
  msg : String
  deriving Repr, DecidableEq

/-- The configuration fields consulted by the embedded code
(`app/core/config.py`). -/
structure Settings where
  LLM_PROVIDER : String
  VISION_LLM_ENABLED : Bool
  VISION_LLM_PROVIDER : String
  deriving Repr

def pyLowerStr (s : String) : String :=
  String.mk (pyLower s.data)

def strTake (s : String) (n : Nat) : String :=
  String.mk (s.data.take n)

/-- One dominant colour record as produced by `extract_dominant_colors`.
The `lab` entry is omitted: it is computed through real-number powers
(`rgb_to_lab`) and is never consumed by any embedded code path or claim. -/
structure DominantColor where
  hex : String
  rgb : List Nat
  percentage : Rat
  name : String
  temperature : String
  deriving Repr

/-- The scalar metrics of `calculate_color_metrics`. -/
structure ColorMetrics where
  brightness : Rat
  overall_contrast : Rat
  overall_saturation : Rat
  deriving Repr

structure ColorFeatures where
  dominant_colors : List DominantColor
  warm_ratio : Rat
  cool_ratio : Rat
  brightness : Rat
  overall_contrast : Rat
  overall_saturation : Rat
  deriving Repr

/-- Embedding of `extract_color_features`
(`deep_analysis_service.py`, lines 394-412).  The image-dependent k-means
clustering (`extract_dominant_colors`) and pixel metrics
(`calculate_color_metrics`) are modelled as inputs; the warm/cool
renormalisation is embedded from the source:
`warm_total/cool_total` sum the percentages of colours tagged warm/cool, and
the ratios renormalise over their sum when it is positive, both defaulting
to `0.5` otherwise. -/
def warmTotal (colors : List DominantColor) : Rat :=
  ((colors.filter (fun c => c.temperature = "warm")).map (fun c => c.percentage)).sum

def coolTotal (colors : List DominantColor) : Rat :=
  ((colors.filter (fun c => c.temperature = "cool")).map (fun c => c.percentage)).sum

def extract_color_features (colors : List DominantColor) (metrics : ColorMetrics) :
    ColorFeatures :=
  let warm_total := warmTotal colors
  let cool_total := coolTotal colors
  let total := warm_total + cool_total
  { dominant_colors := colors,
    warm_ratio := if 0 < total then warm_total / total else (1 : Rat) / 2,
    cool_ratio := if 0 < total then cool_total / total else (1 : Rat) / 2,
    brightness := metrics.brightness,
    overall_contrast := metrics.overall_contrast,
    overall_saturation := metrics.overall_saturation }

structure FocalPoint where
  x : Rat
  y : Rat
  strength : Rat
  deriving Repr

/-- The record returned by `extract_composition_features` (lines 656-686);
the saliency/symmetry/perspective computations over decoded pixels are
modelled as inputs holding this record. -/
structure CompositionFeatures where
  saliency_center_x : Rat
  saliency_center_y : Rat
  rule_of_thirds_alignment : Rat
  horizontal_symmetry : Rat
  vertical_symmetry : Rat
  visual_weight_distribution : String
  focal_points : List FocalPoint
  perspective_lines_detected : Bool
  vanishing_points : List (Rat × Rat)
  deriving Repr

/-- Python truthiness (`if data:`) on JSON values. -/
def jTruthy : Json → Bool
  | .null => false
  | .bool b => b
  | .num q => q ≠ 0
  | .str s => s ≠ ""
  | .arr elems => ¬ elems.isEmpty
  | .obj fields => ¬ fields.isEmpty

/-- Python `dict.get(key)` on a JSON object (`none` when absent or when the
value is not an object). -/
def jGet : Json → String → Option Json
  | .obj fields, k => (fields.find? (fun p => p.1 = k)).map (fun p => p.2)
  | _, _ => none

/-- Python `dict.get(key, default)`. -/
def jGetD (j : Json) (k : String) (d : Json) : Json :=
  (jGet j k).getD d

/-- Python `result["source"] = provider` on a dict (replace or append).  On a
non-object Python would raise `TypeError`; that path is unreachable in every
claim and is modelled as the identity. -/
def jSetField : Json → String → Json → Json
  | .obj fields, k, v => .obj (objInsert fields k v)
  | j, _, _ => j

/-- The dict returned by `extract_scene_features_with_vision` and
`extract_scene_features`: the `mood`/`setting` keys are only present on the
successful-parse branch, hence `Option`. -/
structure SceneFeaturesDict where
  detected_objects : Json
  style_tags : Json
  clip_description : Json
  detected_text : Json
  primary_subject : Json
  mood : Option Json
  setting : Option Json
  deriving Repr

def emptySceneFeatures : SceneFeaturesDict :=
  { detected_objects := .arr [], style_tags := .arr [], clip_description := .null,
    detected_text := .arr [], primary_subject := .null, mood := none, setting := none }

/-- The parse-failure branch of `extract_scene_features_with_vision`
(lines 735-743): the raw response text, truncated to 500 characters, becomes
the description (`None` for an empty response). -/
def rawDescScene (response : String) : SceneFeaturesDict :=
  { emptySceneFeatures with
    clip_description := if response ≠ "" then .str (strTake response 500) else .null }

/-- Embedding of `extract_scene_features_with_vision`
(`deep_analysis_service.py`, lines 694-753).  `visionCall` is the outcome of
`generate_with_vision` (`.ok` the returned text — including its non-raising
placeholder strings —, `.error` a raised `LLMError`).  On a successful
response whose extracted JSON is a truthy non-object, Python would raise
`AttributeError` on `.get`; that path is unreachable in every claim and the
lookups are modelled as returning their defaults. -/
def extract_scene_features_with_vision (visionEnabled : Bool)
    (visionCall : Except LLMError String) : SceneFeaturesDict :=
  if ¬ visionEnabled then emptySceneFeatures
  else
    match visionCall with
    | .error e =>
      { emptySceneFeatures with
        clip_description := .str ("Vision analysis failed: " ++ e.msg) }
    | .ok response =>
      match extract_json_from_response response with
      | some data =>
        if jTruthy data then
          { detected_objects := jGetD data "detected_objects" (.arr []),
            style_tags := jGetD data "style_tags" (.arr []),
            clip_description := jGetD data "description" .null,
            detected_text := jGetD data "detected_text" (.arr []),
            primary_subject := jGetD data "primary_subject" .null,
            mood := some (jGetD data "mood" .null),
            setting := some (jGetD data "setting" .null) }
        else rawDescScene response
      | none => rawDescScene response

/-! ML-prediction plumbing (`prompts.py` line 68, `deep_analysis_service.py`
lines 1125-1142). -/

/-- One raw prediction dict as received from the classifier (`.get` fields). -/
structure RawPrediction where
  name : Option String
  artist_slug : Option String
  probability : Option Rat
  deriving Repr

/-- The classifier result dict (`{"artists": ..., "genres": ..., "styles":
...}`). -/
structure MLPredictions where
  artists : List RawPrediction
  genres : List RawPrediction
  styles : List RawPrediction
  deriving Repr

/-- The dict produced by `format_prediction_for_prompt`. -/
structure FormattedPrediction where
  name : String
  probability : Rat
  deriving Repr

/-- Python `str.replace(old, new)` for a single-character pattern and
replacement (the only form the source uses), which is a character map. -/
def replaceChar (a b : Char) (s : String) : String :=
  String.mk (s.data.map (fun c => if c = a then b else c))

/-- Python `str.title()` on the ASCII range: a letter is uppercased after a
non-letter and lowercased after a letter. -/
def pyTitleGo : List Char → Bool → List Char
  | [], _ => []
  | c :: t, prevCased =>
    if c.isAlpha then
      (if prevCased then c.toLower else c.toUpper) :: pyTitleGo t true
    else c :: pyTitleGo t false

def pyTitle (s : String) : String :=
  String.mk (pyTitleGo s.data false)

/-- Embedding of `format_prediction_for_prompt` (`prompts.py`, lines 68-72):
the dict's `name` if truthy, else its `artist_slug` (default `"Unknown"`),
with dashes/underscores turned into spaces and the result title-cased. -/
def format_prediction_for_prompt (nameField artistSlugField : Option String)
    (prob : Rat) : FormattedPrediction :=
  let base :=
    match nameField with
    | some s => if s ≠ "" then s else artistSlugField.getD "Unknown"
    | none => artistSlugField.getD "Unknown"
  { name := pyTitle (replaceChar '_' ' ' (replaceChar '-' ' ' base)), probability := prob }

/-- The dict produced by `prepare_ml_predictions_for_prompt`. -/
structure MLPromptData where
  artists : List FormattedPrediction
  genres : List FormattedPrediction
  styles : List FormattedPrediction
  deriving Repr

/-- Embedding of `prepare_ml_predictions_for_prompt`
(`deep_analysis_service.py`, lines 1125-1142): artists are formatted from
`{"artist_slug": a.get("artist_slug", ""), "probability": ...}` (no `name`
key), genres and styles from `{"name": g.get("name", ""), "probability":
...}` (no `artist_slug` key). -/
def prepare_ml_predictions_for_prompt (ml : MLPredictions) : MLPromptData :=
  { artists := ml.artists.map (fun a =>
      format_prediction_for_prompt none (some (a.artist_slug.getD ""))
        (a.probability.getD 0)),
    genres := ml.genres.map (fun g =>
      format_prediction_for_prompt (some (g.name.getD "")) none
        (g.probability.getD 0)),
    styles := ml.styles.map (fun s =>
      format_prediction_for_prompt (some (s.name.getD "")) none
        (s.probability.getD 0)) }

/-! The interpretation stage (`deep_analysis_service.py`, lines 774-1120).
Provider calls are abstracted as an oracle over `GenCall`: each constructor
packages the data from which the corresponding prompt builder in `prompts.py`
assembles its prompt text (the prompt strings themselves are consulted by no
claim).  `.ok s` is the provider's returned text, `.error e` a raised
`LLMError` (including one raised while constructing the provider, which the
same `except LLMError` handlers catch). -/

inductive GenCall where
  | colorPsych (features : ColorFeatures)
  | composition (features : CompositionFeatures)
  | scene (features : SceneFeaturesDict) (ml : Option MLPromptData)
  | technique (ml : Option MLPromptData) (colorF : Option ColorFeatures)
      (compF : Option CompositionFeatures)
  | historical (ml : Option MLPromptData) (colorA compA sceneA techA : Option Json)
  | summary (colorA compA sceneA techA histA : Json) (ml : MLPromptData)

def GenOracle : Type :=
  GenCall → Except LLMError String

/-- Embedding of `_build_stub_color_analysis` (lines 812-823). -/
def buildStubColorAnalysis (cf : ColorFeatures) : Json :=
  let color_names := (cf.dominant_colors.take 3).map (fun c => c.name)
  .obj [("palette_interpretation",
          .str ("Палитра состоит преимущественно из "
            ++ String.intercalate ", " color_names ++ ".")),
        ("mood_tags", .arr [.str "нейтральный"]),
        ("color_harmony", .str "смешанная"),
        ("emotional_impact", .str "Анализ недоступен (LLM не настроен)."),
        ("source", .str "stub")]

/-- The dict built by `analyze_color_psychology` when the provider responded
but no JSON could be recovered (lines 798-805). -/
def colorParseFallback (cleaned : String) (provider : String) : Json :=
  .obj [("palette_interpretation", .str (strTake cleaned 500)),
        ("mood_tags", .arr [.str "неопределённый"]),
        ("color_harmony", .str "смешанная"),
        ("emotional_impact", .str "Требуется дополнительный анализ."),
        ("source", .str provider)]

/-- Embedding of `analyze_color_psychology` (lines 774-809): stub when the
provider is `"none"`, stub on a raised `LLMError`, otherwise clean the
response, extract JSON (tagged with the provider name), or fall back to a
snippet dict on parse failure. -/
def analyze_color_psychology (st : Settings) (gen : GenOracle) (cf : ColorFeatures) :
    Json :=
  if pyLowerStr st.LLM_PROVIDER = "none" then buildStubColorAnalysis cf
  else
    match gen (.colorPsych cf) with
    | .error _ => buildStubColorAnalysis cf
    | .ok response =>
      let cleaned := clean_think_tags response
      match extract_json_from_response cleaned with
      | some result =>
        if jTruthy result then jSetField result "source" (.str st.LLM_PROVIDER)
        else colorParseFallback cleaned st.LLM_PROVIDER
      | none => colorParseFallback cleaned st.LLM_PROVIDER

/-- Python's `:.0f` float format on a non-negative exact value: round half to
even (ties on the underlying double may differ; no claim consults this
string). -/
def fmtF0 (q : Rat) : String :=
  let fl : Int := ⌊q⌋
  let frac : Rat := q - (fl : Rat)
  toString (if frac < 1 / 2 then fl
    else if 1 / 2 < frac then fl + 1
    else if fl % 2 = 0 then fl else fl + 1)

/-- Embedding of `_build_stub_composition_analysis` (lines 865-878). -/
def buildStubCompositionAnalysis (comp : CompositionFeatures) : Json :=
  let weight := comp.visual_weight_distribution
  let rot := comp.rule_of_thirds_alignment
  .obj [("composition_type",
          .str (if weight ≠ "balanced" then "asymmetrical" else "balanced")),
        ("balance_description", .str ("Визуальный вес: " ++ weight ++ ".")),
        ("visual_flow", .str "Анализ недоступен."),
        ("focal_point_analysis",
          .str ("Соответствие правилу третей: " ++ fmtF0 (rot * 100) ++ "%.")),
        ("spatial_depth", .str "Анализ недоступен."),
        ("dynamism_level", .str "moderate"),
        ("source", .str "stub")]

def compositionParseFallback (cleaned : String) (provider : String) : Json :=
  .obj [("composition_type", .str "смешанная"),
        ("balance_description", .str (strTake cleaned 300)),
        ("visual_flow", .str "Требуется дополнительный анализ."),
        ("focal_point_analysis", .str "Основной фокус в центральной части."),
        ("spatial_depth", .str "Умеренная глубина."),
        ("dynamism_level", .str "moderate"),
        ("source", .str provider)]

/-- Embedding of `analyze_composition` (lines 826-862). -/
def analyze_composition (st : Settings) (gen : GenOracle) (comp : CompositionFeatures) :
    Json :=
  if pyLowerStr st.LLM_PROVIDER = "none" then buildStubCompositionAnalysis comp
  else
    match gen (.composition comp) with
    | .error _ => buildStubCompositionAnalysis comp
    | .ok response =>
      let cleaned := clean_think_tags response
      match extract_json_from_response cleaned with
      | some result =>
        if jTruthy result then jSetField result "source" (.str st.LLM_PROVIDER)
        else compositionParseFallback cleaned st.LLM_PROVIDER
      | none => compositionParseFallback cleaned st.LLM_PROVIDER

/-- Embedding of `_build_stub_scene_analysis` (lines 921-930); the
`scene_features` argument is unused by the source too. -/
def buildStubSceneAnalysis (_sceneFeatures : SceneFeaturesDict) : Json :=
  .obj [("narrative_interpretation", .str "Анализ сюжета недоступен (LLM не настроен)."),
        ("symbolism", .str "Символика не определена."),
        ("subject_analysis", .str "Требуется настройка LLM."),
        ("text_interpretation", .null),
        ("cultural_references", .arr []),
        ("source", .str "stub")]

def sceneParseFallback (cleaned : String) (provider : String) : Json :=
  .obj [("narrative_interpretation", .str (strTake cleaned 400)),
        ("symbolism", .str "Требуется дополнительный анализ."),
        ("subject_analysis", .str "Анализ сюжета."),
        ("text_interpretation", .null),
        ("cultural_references", .arr []),
        ("source", .str provider)]

/-- Embedding of `analyze_scene` (lines 881-918). -/
def analyze_scene (st : Settings) (gen : GenOracle) (sceneFeatures : SceneFeaturesDict)
    (ml : Option MLPromptData) : Json :=
  if pyLowerStr st.LLM_PROVIDER = "none" then buildStubSceneAnalysis sceneFeatures
  else
    match gen (.scene sceneFeatures ml) with
    | .error _ => buildStubSceneAnalysis sceneFeatures
    | .ok response =>
      let cleaned := clean_think_tags response
      match extract_json_from_response cleaned with
      | some result =>
        if jTruthy result then jSetField result "source" (.str st.LLM_PROVIDER)
        else sceneParseFallback cleaned st.LLM_PROVIDER
      | none => sceneParseFallback cleaned st.LLM_PROVIDER

/-- The head artist name consulted by the technique and summary stubs:
`ml_predictions["artists"][0].get("name", default)` guarded by
`if ml_predictions and ml_predictions.get("artists")` (`none` models both
Python `None` and a falsy empty dict). -/
def headArtistName (ml : Option MLPromptData) (default : String) : String :=
  match ml with
  | some d =>
    match d.artists with
    | a :: _ => a.name
    | [] => default
  | none => default

/-- The head style name consulted by the historical stub. -/
def headStyleName (ml : Option MLPromptData) (default : String) : String :=
  match ml with
  | some d =>
    match d.styles with
    | s :: _ => s.name
    | [] => default
  | none => default

/-- Embedding of `_build_stub_technique_analysis` (lines 974-987). -/
def buildStubTechniqueAnalysis (ml : Option MLPromptData) : Json :=
  let artist := headArtistName ml "неизвестный"
  .obj [("brushwork", .str ("Стиль похож на работы " ++ artist ++ ".")),
        ("light_analysis", .str "Анализ света недоступен."),
        ("spatial_treatment", .str "Анализ пространства недоступен."),
        ("medium_estimation", .str "неизвестно"),
        ("technical_skill_indicators", .arr []),
        ("source", .str "stub")]

def techniqueParseFallback (cleaned : String) (provider : String) : Json :=
  .obj [("brushwork", .str (strTake cleaned 300)),
        ("light_analysis", .str "Требуется дополнительный анализ."),
        ("spatial_treatment", .str "Анализ пространства."),
        ("medium_estimation", .str "неизвестно"),
        ("technical_skill_indicators", .arr []),
        ("source", .str provider)]

/-- Embedding of `analyze_technique` (lines 933-971). -/
def analyze_technique (st : Settings) (gen : GenOracle) (ml : Option MLPromptData)
    (colorF : Option ColorFeatures) (compF : Option CompositionFeatures) : Json :=
  if pyLowerStr st.LLM_PROVIDER = "none" then buildStubTechniqueAnalysis ml
  else
    match gen (.technique ml colorF compF) with
    | .error _ => buildStubTechniqueAnalysis ml
    | .ok response =>
      let cleaned := clean_think_tags response
      match extract_json_from_response cleaned with
      | some result =>
        if jTruthy result then jSetField result "source" (.str st.LLM_PROVIDER)
        else techniqueParseFallback cleaned st.LLM_PROVIDER
      | none => techniqueParseFallback cleaned st.LLM_PROVIDER

/-- Embedding of `_build_stub_historical_analysis` (lines 1040-1054). -/
def buildStubHistoricalAnalysis (ml : Option MLPromptData) : Json :=
  let style := headStyleName ml "неизвестный стиль"
  .obj [("estimated_era", .str "Неопределённая эпоха"),
        ("art_movement_connections", .arr [.str style]),
        ("artistic_influences", .str "Анализ влияний недоступен (LLM не настроен)."),
        ("historical_significance", .str "Требуется настройка LLM для анализа."),
        ("cultural_context", .str "Контекст не определён."),
        ("confidence_note", .str "Данные ограничены из-за отсутствия LLM."),
        ("source", .str "stub")]

def historicalParseFallback (cleaned : String) (provider : String) : Json :=
  .obj [("estimated_era", .str "Неопределённая эпоха"),
        ("art_movement_connections", .arr []),
        ("artistic_influences", .str (strTake cleaned 400)),
        ("historical_significance", .str "Требуется дополнительный анализ."),
        ("cultural_context", .str "Анализ контекста."),
        ("confidence_note", .str "Это интерпретация, а не строгая атрибуция."),
        ("source", .str provider)]

/-- Embedding of `analyze_historical_context` (lines 990-1037). -/
def analyze_historical_context (st : Settings) (gen : GenOracle)
    (ml : Option MLPromptData) (colorA compA sceneA techA : Option Json) : Json :=
  if pyLowerStr st.LLM_PROVIDER = "none" then buildStubHistoricalAnalysis ml
  else
    match gen (.historical ml colorA compA sceneA techA) with
    | .error _ => buildStubHistoricalAnalysis ml
    | .ok response =>
      let cleaned := clean_think_tags response
      match extract_json_from_response cleaned with
      | some result =>
        if jTruthy result then jSetField result "source" (.str st.LLM_PROVIDER)
        else historicalParseFallback cleaned st.LLM_PROVIDER
      | none => historicalParseFallback cleaned st.LLM_PROVIDER

/-- Embedding of `_build_stub_summary` (lines 1103-1120): the literal
f-string, including its single-brace example markers and trailing spaces. -/
def buildStubSummary (ml : Option MLPromptData) : String :=
  let artist := headArtistName ml "неизвестный художник"
  "## Сводный анализ\n\nПроизведение демонстрирует стилистическое сходство с работами \x7bartist|"
    ++ artist
    ++ "\x7d. \nХарактерные \x7btechnique|мазки\x7d и \x7bcomposition|композиционное построение\x7d указывают на \n\x7bera|классический период\x7d развития художественной традиции.\n\nВ палитре преобладают \x7bcolor|#4a5568|приглушённые тона\x7d, создающие \n\x7bmood|созерцательное\x7d настроение произведения.\n\nДля получения полного глубокого анализа необходимо настроить LLM-провайдер в конфигурации приложения.\n\n*Примечание: данный анализ является предварительным и требует расширенной интерпретации.*"

def emptyMLPromptData : MLPromptData :=
  { artists := [], genres := [], styles := [] }

/-- Embedding of `generate_summary` (lines 1057-1100): stub summary parsed
through the marker parser when the provider is `"none"` or the call raises;
otherwise the cleaned response is parsed.  The `ml` argument is the
`ml_predictions or {}` dict (`none` models the empty dict / `None`,
indistinguishable to the stub's truthiness guard). -/
def generate_summary (st : Settings) (gen : GenOracle)
    (colorA compA sceneA techA histA : Json) (ml : Option MLPromptData) :
    RichSummary :=
  if pyLowerStr st.LLM_PROVIDER = "none" then
    parse_inline_markers (buildStubSummary ml)
  else
    match gen (.summary colorA compA sceneA techA histA (ml.getD emptyMLPromptData)) with
    | .error _ => parse_inline_markers (buildStubSummary ml)
    | .ok response => parse_inline_markers (clean_think_tags response)

/-! The orchestrators (`deep_analysis_service.py`, lines 1145-1286). -/

/-- The heterogeneous `features` entry of `run_single_module_analysis`'s
result dict. -/
inductive ModuleFeatures where
  | colorF (f : ColorFeatures)
  | compF (f : CompositionFeatures)
  | sceneF (f : SceneFeaturesDict)
  | noneF

structure SingleModuleResult where
  features : ModuleFeatures
  analysis : Json

/-- Work performed by a `run_single_module_analysis` branch, in order:
feature extractions and interpretation-stage invocations (each of the latter
is where an LLM call may be issued). -/
inductive ModuleStep where
  | featureExtraction (kind : String)
  | interpretation (kind : String)
  deriving Repr, DecidableEq

/-- Embedding of `run_single_module_analysis`
(`deep_analysis_service.py`, lines 1145-1208), also returning the ordered
log of feature extractions and interpretation invocations the executed
branch performs.  An unknown module name raises
`ValueError(f"Unknown module: {module}")`, modelled as `.error`; its branch
performs no work, so its log is empty. -/
def run_single_module_analysis (st : Settings) (gen : GenOracle)
    (vis : Except LLMError String) (module : String)
    (colors : List DominantColor) (metrics : ColorMetrics)
    (compFeatures : CompositionFeatures) (ml : Option MLPredictions) :
    Except String SingleModuleResult × List ModuleStep :=
  let mlPromptData := ml.map prepare_ml_predictions_for_prompt
  if module = "color" then
    let features := extract_color_features colors metrics
    let analysis := analyze_color_psychology st gen features
    (.ok ⟨.colorF features, analysis⟩,
      [.featureExtraction "color", .interpretation "color"])
  else if module = "composition" then
    let features := compFeatures
    let analysis := analyze_composition st gen features
    (.ok ⟨.compF features, analysis⟩,
      [.featureExtraction "composition", .interpretation "composition"])
  else if module = "scene" then
    let features := extract_scene_features_with_vision st.VISION_LLM_ENABLED vis
    let analysis := analyze_scene st gen features mlPromptData
    (.ok ⟨.sceneF features, analysis⟩,
      [.featureExtraction "scene", .interpretation "scene"])
  else if module = "technique" then
    let colorF := extract_color_features colors metrics
    let analysis := analyze_technique st gen mlPromptData (some colorF) (some compFeatures)
    (.ok ⟨.noneF, analysis⟩,
      [.featureExtraction "color", .featureExtraction "composition",
        .interpretation "technique"])
  else if module = "historical" then
    let colorF := extract_color_features colors metrics
    let colorA := analyze_color_psychology st gen colorF
    let compA := analyze_composition st gen compFeatures
    let sceneFeatures := extract_scene_features_with_vision st.VISION_LLM_ENABLED vis
    let sceneA := analyze_scene st gen sceneFeatures mlPromptData
    let techA := analyze_technique st gen mlPromptData (some colorF) (some compFeatures)
    let analysis := analyze_historical_context st gen mlPromptData
      (some colorA) (some compA) (some sceneA) (some techA)
    (.ok ⟨.noneF, analysis⟩,
      [.featureExtraction "color", .interpretation "color",
        .featureExtraction "composition", .interpretation "composition",
        .featureExtraction "scene", .interpretation "scene",
        .interpretation "technique", .interpretation "historical"])
  else
    (.error ("Unknown module: " ++ module), [])

/-- The result dict of `run_full_deep_analysis`: all nine keys. -/
structure FullAnalysisResult where
  color : Json
  color_features : ColorFeatures
  composition : Json
  composition_features : CompositionFeatures
  scene : Json
  scene_features : SceneFeaturesDict
  technique : Json
  historical : Json
  summary : RichSummary

/-- Embedding of `run_full_deep_analysis`
(`deep_analysis_service.py`, lines 1211-1286): the fixed sequential
protocol.  Visual feature extraction over the decoded image is modelled by
the `colors`/`metrics`/`compFeatures` inputs (a fatal image-read error would
propagate before any of this code runs); everything downstream is embedded
from the source in the source's order. -/
def run_full_deep_analysis (st : Settings) (gen : GenOracle)
    (vis : Except LLMError String) (colors : List DominantColor)
    (metrics : ColorMetrics) (compFeatures : CompositionFeatures)
    (ml : Option MLPredictions) : FullAnalysisResult :=
  let mlPromptData := ml.map prepare_ml_predictions_for_prompt
  let color_features := extract_color_features colors metrics
  let composition_features := compFeatures
  let scene_features := extract_scene_features_with_vision st.VISION_LLM_ENABLED vis
  let color_analysis := analyze_color_psychology st gen color_features
  let composition_analysis := analyze_composition st gen composition_features
  let scene_analysis := analyze_scene st gen scene_features mlPromptData
  let technique_analysis := analyze_technique st gen mlPromptData
    (some color_features) (some composition_features)
  let historical_analysis := analyze_historical_context st gen mlPromptData
    (some color_analysis) (some composition_analysis) (some scene_analysis)
    (some technique_analysis)
  let summary := generate_summary st gen color_analysis composition_analysis
    scene_analysis technique_analysis historical_analysis mlPromptData
  { color := color_analysis,
    color_features := color_features,
    composition := composition_analysis,
    composition_features := composition_features,
    scene := scene_analysis,
    scene_features := scene_features,
    technique := technique_analysis,
    historical := historical_analysis,
    summary := summary }

/-! ## Theorems -/

/-- C3: parsing `"The {color|#ff0000|red} sky"` yields exactly one marker
with `type = "color"`, `value = "#ff0000"`, `label = "red"` (at offset 4,
with the colour icon/css of the lookup table); `cleaned_text` is
`"The [[MARKER_marker_0]] sky"`; and `html_text` is the swatch rendering —
in particular it contains a `color-swatch` span inside the element carrying
`data-value="#ff0000"`. -/
theorem parse_inline_markers_roundtrip_c3 :
    (parse_inline_markers "The \x7bcolor|#ff0000|red\x7d sky").markers =
      [{ id := "marker_0", type := "color", value := "#ff0000", label := "red",
         icon := "palette", css_class := "marker-color", position := 4 }]
    ∧ (parse_inline_markers "The \x7bcolor|#ff0000|red\x7d sky").marker_count = 1
    ∧ (parse_inline_markers "The \x7bcolor|#ff0000|red\x7d sky").cleaned_text =
        "The [[MARKER_marker_0]] sky"
    ∧ (parse_inline_markers "The \x7bcolor|#ff0000|red\x7d sky").html_text =
        "The <span class=\"inline-marker marker-color\" data-type=\"color\" data-value=\"#ff0000\"><span class=\"color-swatch\" style=\"background-color:#ff0000\"></span>red</span> sky"
    ∧ ("<span class=\"color-swatch\" style=\"background-color:#ff0000\"></span>").data <:+:
        (parse_inline_markers "The \x7bcolor|#ff0000|red\x7d sky").html_text.data := by
  refine ⟨rfl, rfl, rfl, ?_, ?_⟩
  · rfl
  · exact ⟨("The <span class=\"inline-marker marker-color\" data-type=\"color\" data-value=\"#ff0000\">").data,
      ("red</span> sky").data, by rfl⟩

/-- C8: `clean_think_tags` removes think/thinking blocks case-insensitively
(including unterminated ones running to end-of-string) and collapses runs of
three or more newlines to two, then trims: the claim's two examples, a
case-insensitivity example and a newline-collapse example. -/
theorem clean_think_tags_c8 :
    clean_think_tags "<think>ignore me</think>Hello" = "Hello"
    ∧ clean_think_tags "<thinking>unterminated" = ""
    ∧ clean_think_tags "<THINK>Ignore Me</THINK>Hello" = "Hello"
    ∧ clean_think_tags "a\n\n\n\n\nb" = "a\n\nb" := by
  refine ⟨?_, ?_, ?_, ?_⟩ <;> rfl

set_option maxRecDepth 100000 in
/-- C5 counterexample: with the LLM provider `"none"` (and no classifier
predictions), the summary returned by `run_full_deep_analysis` is the parse
of the stub summary text, whose `marker_count` is 6, not 0: the stub's
illustrative single-brace markers are live matches of `MARKER_PATTERN`. -/
theorem stub_summary_marker_count_ne_zero_c5 :
    ¬ (run_full_deep_analysis ⟨"none", false, "none"⟩ (fun _ => .error ⟨""⟩)
        (.error ⟨""⟩) [] ⟨1/2, 1/2, 1/2⟩
        ⟨1/2, 1/2, 1/2, 1/2, 1/2, "balanced", [], false, []⟩
        none).summary.marker_count = 0 := by
  have h6 : (run_full_deep_analysis ⟨"none", false, "none"⟩ (fun _ => .error ⟨""⟩)
      (.error ⟨""⟩) [] ⟨1/2, 1/2, 1/2⟩
      ⟨1/2, 1/2, 1/2, 1/2, 1/2, "balanced", [], false, []⟩
      none).summary.marker_count = 6 := by rfl
  omega

set_option maxRecDepth 100000 in
/-- C5 amended: with the LLM provider `"none"`, the summary returned by
`run_full_deep_analysis` is the parse of the stub summary text, and the
stub's six illustrative markers parse as live markers: `marker_count` is 6
when the formatted top-artist name is non-empty (e.g. with no predictions,
where it defaults to `"неизвестный художник"`), and 5 for the specification's
test bundle `{artists: [{name: "Test Artist", probability: 0.9}]}` — there
the orchestrator formats artists from the (missing) `artist_slug`, the
formatted name is empty, and the `{artist|}` example marker does not match.
It is never 0. -/
theorem stub_summary_marker_count_c5 :
    (run_full_deep_analysis ⟨"none", false, "none"⟩ (fun _ => .error ⟨""⟩)
        (.error ⟨""⟩) [] ⟨1/2, 1/2, 1/2⟩
        ⟨1/2, 1/2, 1/2, 1/2, 1/2, "balanced", [], false, []⟩
        none).summary.marker_count = 6
    ∧ (run_full_deep_analysis ⟨"none", false, "none"⟩ (fun _ => .error ⟨""⟩)
        (.error ⟨""⟩) [] ⟨1/2, 1/2, 1/2⟩
        ⟨1/2, 1/2, 1/2, 1/2, 1/2, "balanced", [], false, []⟩
        (some ⟨[⟨some "Test Artist", none, some (9/10)⟩], [], []⟩)).summary.marker_count = 5 := by
  refine ⟨?_, ?_⟩
  · rfl
  · rfl

/-- C7 counterexample: the input `"{a-b|v}"` decomposes as
`{` ++ `a-b` ++ `|` ++ `v` ++ `}` with both fields non-empty and free of `|`
and `}` — an occurrence of the claimed grammar — yet `parse_inline_markers`
records no marker at all, because `MARKER_PATTERN` requires the type to be a
run of word characters (`\w+`) and `a-b` contains `-`. -/
theorem marker_grammar_counterexample_c7 :
    ("\x7ba-b|v\x7d" : String) = "\x7b" ++ "a-b" ++ "|" ++ "v" ++ "\x7d"
    ∧ ("a-b" : String).data ≠ []
    ∧ (∀ c ∈ ("a-b" : String).data, valueChar c = true)
    ∧ ("v" : String).data ≠ []
    ∧ (∀ c ∈ ("v" : String).data, valueChar c = true)
    ∧ (parse_inline_markers "\x7ba-b|v\x7d").markers = []
    ∧ (parse_inline_markers "\x7ba-b|v\x7d").marker_count = 0 :=
  ⟨rfl, by decide, by decide, by decide, by decide, rfl, rfl⟩

/-- C2: `extract_json_from_response` is a total function that attempts, in
order, (1) direct parse of the stripped text, (2) fenced code-block
candidates, (3) brace matching — each stage only when the previous fails —
returning `none` when all fail; and the three concrete behaviours: the
fenced example, unparseable garbage, and brace matching with trailing
text. -/
theorem extract_json_from_response_c2 :
    (∀ (text : String) (j : Json),
        jsonLoads (String.mk (pyStrip text.data)) = some j →
        extract_json_from_response text = some j)
    ∧ (∀ text : String, text ≠ "" →
        jsonLoads (String.mk (pyStrip text.data)) = none →
        extract_json_from_response text =
          (match firstJson (codeBlockGroups text.data) with
           | some j => some j
           | none => braceExtract text.data))
    ∧ extract_json_from_response "Sure! ```json\n\x7b\"a\": 1\x7d\n``` hope this helps"
        = some (.obj [("a", .num 1)])
    ∧ extract_json_from_response "garbage response without json" = none
    ∧ extract_json_from_response "\x7b\"a\": \x7b\"b\": 1\x7d\x7d trailing"
        = some (.obj [("a", .obj [("b", .num 1)])]) := by
  refine ⟨?_, ?_, ?_, ?_, ?_⟩
  · intro text j h
    by_cases htext : text = ""
    · subst htext
      rw [show jsonLoads (String.mk (pyStrip ("" : String).data)) = none from rfl] at h
      exact Option.noConfusion h
    · simp only [extract_json_from_response, if_neg htext, h]
  · intro text htext h
    simp only [extract_json_from_response, if_neg htext, h]
  · rfl
  · rfl
  · rfl

/-- Witness for C2: the first stage succeeds on a bare JSON number, and on
garbage the result is the (failing) later stages. -/
theorem extract_json_from_response_c2_witness :
    extract_json_from_response "7" = some (.num 7)
    ∧ extract_json_from_response "nope" =
        (match firstJson (codeBlockGroups ("nope" : String).data) with
         | some j => some j
         | none => braceExtract ("nope" : String).data) :=
  ⟨extract_json_from_response_c2.1 "7" (.num 7) (by rfl),
   extract_json_from_response_c2.2.1 "nope" (by decide) (by rfl)⟩

/-- The warm/cool branch of `extract_color_features`, exposed for the
ratio theorems. -/
theorem warm_ratio_def (colors : List DominantColor) (metrics : ColorMetrics) :
    (extract_color_features colors metrics).warm_ratio =
      if 0 < warmTotal colors + coolTotal colors then
        warmTotal colors / (warmTotal colors + coolTotal colors)
      else 1 / 2 :=
  rfl

/-- The cool branch of `extract_color_features`. -/
theorem cool_ratio_def (colors : List DominantColor) (metrics : ColorMetrics) :
    (extract_color_features colors metrics).cool_ratio =
      if 0 < warmTotal colors + coolTotal colors then
        coolTotal colors / (warmTotal colors + coolTotal colors)
      else 1 / 2 :=
  rfl

/-- C9: in `extract_color_features`, the warm and cool ratios renormalise
the summed percentages of warm- and cool-tagged dominant colours over the
warm+cool subset whenever that subset's total is positive (in particular they
sum to 1), and both default to `0.5` when no dominant colour is tagged warm
or cool; the ratios sum to 1 in every case (exact-rational model of the
Python floats). -/
theorem warm_cool_ratio_c9 :
    ∀ (colors : List DominantColor) (metrics : ColorMetrics),
      (extract_color_features colors metrics).warm_ratio
        + (extract_color_features colors metrics).cool_ratio = 1
      ∧ (0 < warmTotal colors + coolTotal colors →
          (extract_color_features colors metrics).warm_ratio
              = warmTotal colors / (warmTotal colors + coolTotal colors)
            ∧ (extract_color_features colors metrics).cool_ratio
              = coolTotal colors / (warmTotal colors + coolTotal colors))
      ∧ ((∀ c ∈ colors, c.temperature ≠ "warm" ∧ c.temperature ≠ "cool") →
          (extract_color_features colors metrics).warm_ratio = 1 / 2
            ∧ (extract_color_features colors metrics).cool_ratio = 1 / 2) := by
  intro colors metrics
  rw [warm_ratio_def, cool_ratio_def]
  refine ⟨?_, ?_, ?_⟩
  · split_ifs with h
    · rw [div_add_div_same, div_self (ne_of_gt h)]
    · norm_num
  · intro h
    simp only [if_pos h]
    trivial
  · intro h
    have hw : warmTotal colors = 0 := by
      unfold warmTotal
      rw [List.filter_eq_nil_iff.mpr (fun c hc => by
        simp only [decide_eq_true_eq]
        exact (h c hc).1)]
      rfl
    have hc : coolTotal colors = 0 := by
      unfold coolTotal
      rw [List.filter_eq_nil_iff.mpr (fun c hc => by
        simp only [decide_eq_true_eq]
        exact (h c hc).2)]
      rfl
    rw [hw, hc]
    norm_num

/-- Witness for C9 at a colour list with one warm and one cool colour (with
integral percentages 3 and 1) and at the empty list. -/
theorem warm_cool_ratio_c9_witness :
    (extract_color_features
        [⟨"#ff0000", [255, 0, 0], 3, "красный", "warm"⟩,
         ⟨"#0000ff", [0, 0, 255], 1, "синий", "cool"⟩]
        ⟨1/2, 1/2, 1/2⟩).warm_ratio = 3 / 4
    ∧ (extract_color_features [] ⟨1/2, 1/2, 1/2⟩).warm_ratio = 1 / 2
    ∧ (extract_color_features [] ⟨1/2, 1/2, 1/2⟩).cool_ratio = 1 / 2 := by
  have hwt : warmTotal
      [⟨"#ff0000", [255, 0, 0], 3, "красный", "warm"⟩,
       ⟨"#0000ff", [0, 0, 255], 1, "синий", "cool"⟩] = 3 := by
    simp [warmTotal, List.filter]
  have hct : coolTotal
      [⟨"#ff0000", [255, 0, 0], 3, "красный", "warm"⟩,
       ⟨"#0000ff", [0, 0, 255], 1, "синий", "cool"⟩] = 1 := by
    simp [coolTotal, List.filter]
  have h1 := (warm_cool_ratio_c9
    [⟨"#ff0000", [255, 0, 0], 3, "красный", "warm"⟩,
     ⟨"#0000ff", [0, 0, 255], 1, "синий", "cool"⟩] ⟨1/2, 1/2, 1/2⟩).2.1
  rw [hwt, hct] at h1
  have h2 := (warm_cool_ratio_c9 [] ⟨1/2, 1/2, 1/2⟩).2.2 (by simp)
  refine ⟨?_, h2.1, h2.2⟩
  have := (h1 (by norm_num)).1
  rw [this]
  norm_num

/-- C10: for every module string other than the five known ones,
`run_single_module_analysis` fails with `ValueError("Unknown module: ...")`
(modelled as `.error`) and its log is empty: no feature extraction and no
interpretation-stage invocation happens before the error. -/
theorem run_single_unknown_module_c10 :
    ∀ (st : Settings) (gen : GenOracle) (vis : Except LLMError String)
      (module : String) (colors : List DominantColor) (metrics : ColorMetrics)
      (compFeatures : CompositionFeatures) (ml : Option MLPredictions),
      module ∉ (["color", "composition", "scene", "technique", "historical"] : List String) →
      run_single_module_analysis st gen vis module colors metrics compFeatures ml =
        (.error ("Unknown module: " ++ module), []) := by
  intro st gen vis module colors metrics compFeatures ml hmod
  have h1 : module ≠ "color" := fun h => hmod (by simp [h])
  have h2 : module ≠ "composition" := fun h => hmod (by simp [h])
  have h3 : module ≠ "scene" := fun h => hmod (by simp [h])
  have h4 : module ≠ "technique" := fun h => hmod (by simp [h])
  have h5 : module ≠ "historical" := fun h => hmod (by simp [h])
  simp only [run_single_module_analysis, if_neg h1, if_neg h2, if_neg h3, if_neg h4,
    if_neg h5]

/-- Witness for C10 at the unknown module name `"style"`. -/
theorem run_single_unknown_module_c10_witness :
    run_single_module_analysis ⟨"none", false, "none"⟩ (fun _ => .error ⟨""⟩)
        (.error ⟨""⟩) "style" [] ⟨1/2, 1/2, 1/2⟩
        ⟨1/2, 1/2, 1/2, 1/2, 1/2, "balanced", [], false, []⟩ none =
      (.error "Unknown module: style", []) := by
  have h := run_single_unknown_module_c10 ⟨"none", false, "none"⟩ (fun _ => .error ⟨""⟩)
    (.error ⟨""⟩) "style" [] ⟨1/2, 1/2, 1/2⟩
    ⟨1/2, 1/2, 1/2, 1/2, 1/2, "balanced", [], false, []⟩ none (by decide)
  simpa using h

/-- C6 counterexample: with vision enabled, a vision call failing with
`LLMError("boom")` yields a `SceneFeatures` whose description is the string
`"Vision analysis failed: boom"`, not null as the claim requires. -/
theorem scene_vision_error_description_counterexample_c6 :
    (extract_scene_features_with_vision true (.error ⟨"boom"⟩)).clip_description ≠ Json.null
    ∧ (extract_scene_features_with_vision true (.error ⟨"boom"⟩)).clip_description
        = .str "Vision analysis failed: boom" := by
  refine ⟨fun h => ?_, rfl⟩
  rw [show (extract_scene_features_with_vision true (.error ⟨"boom"⟩)).clip_description
      = Json.str "Vision analysis failed: boom" from rfl] at h
  exact Json.noConfusion h

/-- C6 amended: when the vision capability is disabled,
`extract_scene_features_with_vision` returns the all-empty `SceneFeatures`
(empty lists, null description and primary subject); when the vision call
raises an `LLMError`, it does not raise but returns the otherwise-empty
`SceneFeatures` with the description set to the failure message
`"Vision analysis failed: <error>"`. -/
theorem scene_vision_fallback_c6 :
    (∀ visionCall : Except LLMError String,
        extract_scene_features_with_vision false visionCall = emptySceneFeatures)
    ∧ (∀ e : LLMError,
        extract_scene_features_with_vision true (.error e) =
          { emptySceneFeatures with
            clip_description := .str ("Vision analysis failed: " ++ e.msg) }) := by
  exact ⟨fun _ => rfl, fun _ => rfl⟩

/-! Helper lemmas for the orchestrator-degradation claim: when every
provider call fails, every interpretation stage returns its stub. -/

theorem analyze_color_stub_of_fail (st : Settings) (gen : GenOracle)
    (cf : ColorFeatures) (hg : ∀ call, ∃ e, gen call = .error e) :
    analyze_color_psychology st gen cf = buildStubColorAnalysis cf := by
  unfold analyze_color_psychology
  split
  · rfl
  · obtain ⟨e, he⟩ := hg (.colorPsych cf)
    rw [he]

theorem analyze_composition_stub_of_fail (st : Settings) (gen : GenOracle)
    (comp : CompositionFeatures) (hg : ∀ call, ∃ e, gen call = .error e) :
    analyze_composition st gen comp = buildStubCompositionAnalysis comp := by
  unfold analyze_composition
  split
  · rfl
  · obtain ⟨e, he⟩ := hg (.composition comp)
    rw [he]

theorem analyze_scene_stub_of_fail (st : Settings) (gen : GenOracle)
    (sceneFeatures : SceneFeaturesDict) (ml : Option MLPromptData)
    (hg : ∀ call, ∃ e, gen call = .error e) :
    analyze_scene st gen sceneFeatures ml = buildStubSceneAnalysis sceneFeatures := by
  unfold analyze_scene
  split
  · rfl
  · obtain ⟨e, he⟩ := hg (.scene sceneFeatures ml)
    rw [he]

theorem analyze_technique_stub_of_fail (st : Settings) (gen : GenOracle)
    (ml : Option MLPromptData) (colorF : Option ColorFeatures)
    (compF : Option CompositionFeatures) (hg : ∀ call, ∃ e, gen call = .error e) :
    analyze_technique st gen ml colorF compF = buildStubTechniqueAnalysis ml := by
  unfold analyze_technique
  split
  · rfl
  · obtain ⟨e, he⟩ := hg (.technique ml colorF compF)
    rw [he]

theorem analyze_historical_stub_of_fail (st : Settings) (gen : GenOracle)
    (ml : Option MLPromptData) (colorA compA sceneA techA : Option Json)
    (hg : ∀ call, ∃ e, gen call = .error e) :
    analyze_historical_context st gen ml colorA compA sceneA techA =
      buildStubHistoricalAnalysis ml := by
  unfold analyze_historical_context
  split
  · rfl
  · obtain ⟨e, he⟩ := hg (.historical ml colorA compA sceneA techA)
    rw [he]

theorem generate_summary_stub_of_fail (st : Settings) (gen : GenOracle)
    (colorA compA sceneA techA histA : Json) (ml : Option MLPromptData)
    (hg : ∀ call, ∃ e, gen call = .error e) :
    generate_summary st gen colorA compA sceneA techA histA ml =
      parse_inline_markers (buildStubSummary ml) := by
  unfold generate_summary
  split
  · rfl
  · obtain ⟨e, he⟩ := hg (.summary colorA compA sceneA techA histA (ml.getD emptyMLPromptData))
    rw [he]

theorem jGet_stubColor_source (cf : ColorFeatures) :
    jGet (buildStubColorAnalysis cf) "source" = some (.str "stub") :=
  rfl

theorem jGet_stubComposition_source (comp : CompositionFeatures) :
    jGet (buildStubCompositionAnalysis comp) "source" = some (.str "stub") :=
  rfl

theorem jGet_stubScene_source (sceneFeatures : SceneFeaturesDict) :
    jGet (buildStubSceneAnalysis sceneFeatures) "source" = some (.str "stub") :=
  rfl

theorem jGet_stubTechnique_source (ml : Option MLPromptData) :
    jGet (buildStubTechniqueAnalysis ml) "source" = some (.str "stub") :=
  rfl

theorem jGet_stubHistorical_source (ml : Option MLPromptData) :
    jGet (buildStubHistoricalAnalysis ml) "source" = some (.str "stub") :=
  rfl

set_option maxRecDepth 10000 in
theorem buildStubSummary_ne_empty (ml : Option MLPromptData) :
    buildStubSummary ml ≠ "" := by
  unfold buildStubSummary
  intro h
  rw [String.ext_iff] at h
  simp only [String.data_append] at h
  exact absurd (List.append_eq_nil.mp (List.append_eq_nil.mp h).1).1 (by decide)

/-- C1: if every LLM provider call fails (raises `LLMError`), then for every
feature-extraction outcome and every prediction bundle,
`run_full_deep_analysis` returns (does not raise) a result with all nine
keys — the return type `FullAnalysisResult` — in which each of the five
`ModuleAnalysis` values carries `source = "stub"` and the summary's
`raw_text` is a non-empty string. -/
theorem run_full_degrades_to_stubs_c1 :
    ∀ (st : Settings) (gen : GenOracle) (vis : Except LLMError String)
      (colors : List DominantColor) (metrics : ColorMetrics)
      (compFeatures : CompositionFeatures) (ml : Option MLPredictions),
      (∀ call, ∃ e, gen call = .error e) →
      jGet (run_full_deep_analysis st gen vis colors metrics compFeatures ml).color
          "source" = some (.str "stub")
      ∧ jGet (run_full_deep_analysis st gen vis colors metrics compFeatures ml).composition
          "source" = some (.str "stub")
      ∧ jGet (run_full_deep_analysis st gen vis colors metrics compFeatures ml).scene
          "source" = some (.str "stub")
      ∧ jGet (run_full_deep_analysis st gen vis colors metrics compFeatures ml).technique
          "source" = some (.str "stub")
      ∧ jGet (run_full_deep_analysis st gen vis colors metrics compFeatures ml).historical
          "source" = some (.str "stub")
      ∧ (run_full_deep_analysis st gen vis colors metrics compFeatures ml).summary.raw_text
          ≠ "" := by
  intro st gen vis colors metrics compFeatures ml hg
  refine ⟨?_, ?_, ?_, ?_, ?_, ?_⟩
  · show jGet (analyze_color_psychology st gen (extract_color_features colors metrics))
      "source" = some (.str "stub")
    rw [analyze_color_stub_of_fail st gen _ hg, jGet_stubColor_source]
  · show jGet (analyze_composition st gen compFeatures) "source" = some (.str "stub")
    rw [analyze_composition_stub_of_fail st gen _ hg, jGet_stubComposition_source]
  · show jGet (analyze_scene st gen
      (extract_scene_features_with_vision st.VISION_LLM_ENABLED vis)
      (ml.map prepare_ml_predictions_for_prompt)) "source" = some (.str "stub")
    rw [analyze_scene_stub_of_fail st gen _ _ hg, jGet_stubScene_source]
  · show jGet (analyze_technique st gen (ml.map prepare_ml_predictions_for_prompt)
      (some (extract_color_features colors metrics)) (some compFeatures))
      "source" = some (.str "stub")
    rw [analyze_technique_stub_of_fail st gen _ _ _ hg, jGet_stubTechnique_source]
  · show jGet (analyze_historical_context st gen (ml.map prepare_ml_predictions_for_prompt)
      _ _ _ _) "source" = some (.str "stub")
    rw [analyze_historical_stub_of_fail st gen _ _ _ _ _ hg, jGet_stubHistorical_source]
  · show (generate_summary st gen _ _ _ _ _
      (ml.map prepare_ml_predictions_for_prompt)).raw_text ≠ ""
    rw [generate_summary_stub_of_fail st gen _ _ _ _ _ _ hg]
    exact buildStubSummary_ne_empty _

/-- Witness for C1 with a provider that always fails. -/
theorem run_full_degrades_to_stubs_c1_witness :
    jGet (run_full_deep_analysis ⟨"openai", true, "openrouter"⟩
        (fun _ => .error ⟨"connection refused"⟩) (.error ⟨"connection refused"⟩)
        [] ⟨1/2, 1/2, 1/2⟩ ⟨1/2, 1/2, 1/2, 1/2, 1/2, "balanced", [], false, []⟩
        none).color "source" = some (.str "stub")
    ∧ jGet (run_full_deep_analysis ⟨"openai", true, "openrouter"⟩
        (fun _ => .error ⟨"connection refused"⟩) (.error ⟨"connection refused"⟩)
        [] ⟨1/2, 1/2, 1/2⟩ ⟨1/2, 1/2, 1/2, 1/2, 1/2, "balanced", [], false, []⟩
        none).historical "source" = some (.str "stub")
    ∧ (run_full_deep_analysis ⟨"openai", true, "openrouter"⟩
        (fun _ => .error ⟨"connection refused"⟩) (.error ⟨"connection refused"⟩)
        [] ⟨1/2, 1/2, 1/2⟩ ⟨1/2, 1/2, 1/2, 1/2, 1/2, "balanced", [], false, []⟩
        none).summary.raw_text ≠ "" := by
  have h := run_full_degrades_to_stubs_c1 ⟨"openai", true, "openrouter"⟩
    (fun _ => .error ⟨"connection refused"⟩) (.error ⟨"connection refused"⟩)
    [] ⟨1/2, 1/2, 1/2⟩ ⟨1/2, 1/2, 1/2, 1/2, 1/2, "balanced", [], false, []⟩
    none (fun _ => ⟨⟨"connection refused"⟩, rfl⟩)
  exact ⟨h.1, h.2.2.2.2.1, h.2.2.2.2.2⟩

/-! Structural lemmas about `markerMatch` and the marker sweeps. -/

theorem takeWhile_all_append {p : Char → Bool} {xs : List Char}
    (hxs : ∀ c ∈ xs, p c = true) {y : Char} (hy : p y = false) (ys : List Char) :
    (xs ++ y :: ys).takeWhile p = xs := by
  induction xs with
  | nil => simp [List.takeWhile_cons, hy]
  | cons a l ih =>
    rw [List.cons_append, List.takeWhile_cons, if_pos (hxs a (by simp))]
    rw [ih (fun c hc => hxs c (by simp [hc]))]

theorem dropWhile_all_append {p : Char → Bool} {xs : List Char}
    (hxs : ∀ c ∈ xs, p c = true) {y : Char} (hy : p y = false) (ys : List Char) :
    (xs ++ y :: ys).dropWhile p = y :: ys := by
  induction xs with
  | nil => simp [List.dropWhile_cons, hy]
  | cons a l ih =>
    rw [List.cons_append, List.dropWhile_cons, if_pos (hxs a (by simp))]
    exact ih (fun c hc => hxs c (by simp [hc]))

theorem length_dropWhile_le (p : Char → Bool) (l : List Char) :
    (l.dropWhile p).length ≤ l.length := by
  conv_rhs => rw [← List.takeWhile_append_dropWhile p l]
  rw [List.length_append]
  omega

/-- A successful three-field match at well-formed components. -/
theorem markerMatch_build3 {t v l : List Char}
    (ht : t ≠ []) (htw : ∀ c ∈ t, pyWord c = true)
    (hv : v ≠ []) (hvw : ∀ c ∈ v, valueChar c = true)
    (hl : l ≠ []) (hlw : ∀ c ∈ l, labelChar c = true) (post : List Char) :
    markerMatch ('{' :: (t ++ '|' :: (v ++ '|' :: (l ++ '}' :: post)))) =
      some ⟨t, v, some l, post⟩ := by
  have h1 : (t ++ '|' :: (v ++ '|' :: (l ++ '}' :: post))).takeWhile pyWord = t :=
    takeWhile_all_append htw (by decide) _
  have h2 : (t ++ '|' :: (v ++ '|' :: (l ++ '}' :: post))).dropWhile pyWord =
      '|' :: (v ++ '|' :: (l ++ '}' :: post)) :=
    dropWhile_all_append htw (by decide) _
  have h3 : (v ++ '|' :: (l ++ '}' :: post)).takeWhile valueChar = v :=
    takeWhile_all_append hvw (by decide) _
  have h4 : (v ++ '|' :: (l ++ '}' :: post)).dropWhile valueChar =
      '|' :: (l ++ '}' :: post) :=
    dropWhile_all_append hvw (by decide) _
  have h5 : (l ++ '}' :: post).takeWhile labelChar = l :=
    takeWhile_all_append hlw (by decide) _
  have h6 : (l ++ '}' :: post).dropWhile labelChar = '}' :: post :=
    dropWhile_all_append hlw (by decide) _
  simp only [markerMatch, h1, h2, h3, h4, h5, h6,
    List.isEmpty_eq_false.mpr ht, List.isEmpty_eq_false.mpr hv,
    List.isEmpty_eq_false.mpr hl, Bool.false_eq_true, if_false]

/-- A successful two-field match at well-formed components. -/
theorem markerMatch_build2 {t v : List Char}
    (ht : t ≠ []) (htw : ∀ c ∈ t, pyWord c = true)
    (hv : v ≠ []) (hvw : ∀ c ∈ v, valueChar c = true) (post : List Char) :
    markerMatch ('{' :: (t ++ '|' :: (v ++ '}' :: post))) =
      some ⟨t, v, none, post⟩ := by
  have h1 : (t ++ '|' :: (v ++ '}' :: post)).takeWhile pyWord = t :=
    takeWhile_all_append htw (by decide) _
  have h2 : (t ++ '|' :: (v ++ '}' :: post)).dropWhile pyWord =
      '|' :: (v ++ '}' :: post) :=
    dropWhile_all_append htw (by decide) _
  have h3 : (v ++ '}' :: post).takeWhile valueChar = v :=
    takeWhile_all_append hvw (by decide) _
  have h4 : (v ++ '}' :: post).dropWhile valueChar = '}' :: post :=
    dropWhile_all_append hvw (by decide) _
  simp only [markerMatch, h1, h2, h3, h4,
    List.isEmpty_eq_false.mpr ht, List.isEmpty_eq_false.mpr hv,
    Bool.false_eq_true, if_false]

theorem markerMatch_nil : markerMatch [] = none :=
  rfl

theorem markerMatch_cons_ne {c : Char} (t : List Char) (hc : c ≠ '{') :
    markerMatch (c :: t) = none := by
  unfold markerMatch
  split
  · next heq => exact absurd (List.cons.inj heq).1 hc
  · rfl

/-- Full characterisation of a successful match: the groups are non-empty
runs of their character classes and the input decomposes as the matched span
followed by `after`. -/
theorem markerMatch_spec {cs : List Char} {h : MarkerHit}
    (hm : markerMatch cs = some h) :
    h.mtype ≠ [] ∧ (∀ c ∈ h.mtype, pyWord c = true) ∧
    h.mvalue ≠ [] ∧ (∀ c ∈ h.mvalue, valueChar c = true) ∧
    ((∃ l, h.mlabel = some l ∧ l ≠ [] ∧ (∀ c ∈ l, labelChar c = true) ∧
        cs = '{' :: (h.mtype ++ '|' :: (h.mvalue ++ '|' :: (l ++ '}' :: h.after))))
      ∨ (h.mlabel = none ∧
        cs = '{' :: (h.mtype ++ '|' :: (h.mvalue ++ '}' :: h.after)))) := by
  unfold markerMatch at hm
  split at hm
  next unused rest =>
    clear unused
    simp only at hm
    split at hm
    · exact absurd hm (by simp)
    next hte =>
      have ht : rest.takeWhile pyWord ≠ [] := fun hh => hte (by simp [hh])
      have htw : ∀ c ∈ rest.takeWhile pyWord, pyWord c = true :=
        fun c hc => List.mem_takeWhile_imp hc
      have e1 : rest = rest.takeWhile pyWord ++ rest.dropWhile pyWord :=
        (List.takeWhile_append_dropWhile pyWord rest).symm
      split at hm
      next rest2 hd =>
        split at hm
        · exact absurd hm (by simp)
        next hve =>
          have hv : rest2.takeWhile valueChar ≠ [] := fun hh => hve (by simp [hh])
          have hvw : ∀ c ∈ rest2.takeWhile valueChar, valueChar c = true :=
            fun c hc => List.mem_takeWhile_imp hc
          have e2 : rest2 = rest2.takeWhile valueChar ++ rest2.dropWhile valueChar :=
            (List.takeWhile_append_dropWhile valueChar rest2).symm
          split at hm
          next after hd2 =>
            obtain rfl : h = ⟨rest.takeWhile pyWord, rest2.takeWhile valueChar,
                none, after⟩ := (Option.some.inj hm).symm
            refine ⟨ht, htw, hv, hvw, Or.inr ⟨rfl, ?_⟩⟩
            show '{' :: rest = '{' :: (rest.takeWhile pyWord ++ '|' ::
              (rest2.takeWhile valueChar ++ '}' :: after))
            conv_lhs => rw [e1, hd, e2, hd2]
          next rest3 hd2 =>
            split at hm
            · exact absurd hm (by simp)
            next hle =>
              have hl : rest3.takeWhile labelChar ≠ [] := fun hh => hle (by simp [hh])
              have hlw : ∀ c ∈ rest3.takeWhile labelChar, labelChar c = true :=
                fun c hc => List.mem_takeWhile_imp hc
              have e3 : rest3 = rest3.takeWhile labelChar ++ rest3.dropWhile labelChar :=
                (List.takeWhile_append_dropWhile labelChar rest3).symm
              split at hm
              next after hd3 =>
                obtain rfl : h = ⟨rest.takeWhile pyWord, rest2.takeWhile valueChar,
                    some (rest3.takeWhile labelChar), after⟩ := (Option.some.inj hm).symm
                refine ⟨ht, htw, hv, hvw,
                  Or.inl ⟨rest3.takeWhile labelChar, rfl, hl, hlw, ?_⟩⟩
                show '{' :: rest = '{' :: (rest.takeWhile pyWord ++ '|' ::
                  (rest2.takeWhile valueChar ++ '|' ::
                    (rest3.takeWhile labelChar ++ '}' :: after)))
                conv_lhs => rw [e1, hd, e2, hd2, e3, hd3]
              · exact absurd hm (by simp)
          · exact absurd hm (by simp)
      · exact absurd hm (by simp)
  · exact absurd hm (by simp)

theorem MarkerHit.consumed_pos (h : MarkerHit) : 1 ≤ h.consumed := by
  unfold MarkerHit.consumed
  cases h.mlabel <;> simp

theorem markerMatch_length {cs : List Char} {h : MarkerHit}
    (hm : markerMatch cs = some h) : cs.length = h.consumed + h.after.length := by
  obtain ⟨-, -, -, -, hcase⟩ := markerMatch_spec hm
  rcases hcase with ⟨l, hlab, -, -, heq⟩ | ⟨hlab, heq⟩ <;>
    simp [heq, MarkerHit.consumed, hlab] <;> omega

theorem markerMatch_after_lt {cs : List Char} {h : MarkerHit}
    (hm : markerMatch cs = some h) : h.after.length < cs.length := by
  have h1 := markerMatch_length hm
  have h2 := h.consumed_pos
  omega

theorem markerMatch_drop {cs : List Char} {h : MarkerHit}
    (hm : markerMatch cs = some h) : cs.drop h.consumed = h.after := by
  obtain ⟨-, -, -, -, hcase⟩ := markerMatch_spec hm
  rcases hcase with ⟨l, hlab, -, -, heq⟩ | ⟨hlab, heq⟩
  · have hc : h.consumed =
        (h.mtype.length + ((h.mvalue.length + ((l.length + (0 + 1)) + 1)) + 1)) + 1 := by
      simp [MarkerHit.consumed, hlab]
      omega
    rw [heq, hc, List.drop_succ_cons, List.drop_append, List.drop_succ_cons,
      List.drop_append, List.drop_succ_cons, List.drop_append, List.drop_succ_cons,
      List.drop_zero]
  · have hc : h.consumed = (h.mtype.length + ((h.mvalue.length + (0 + 1)) + 1)) + 1 := by
      simp [MarkerHit.consumed, hlab]
      omega
    rw [heq, hc, List.drop_succ_cons, List.drop_append, List.drop_succ_cons,
      List.drop_append, List.drop_succ_cons, List.drop_zero]

/-! Fuel irrelevance and one-step unfolding equations for the three sweeps:
every wrapper passes `length + 1` fuel, which exceeds the number of scan
steps since each step consumes at least one character. -/

theorem scanMarkersF_succ (fuel : Nat) (cs : List Char) (pos : Nat) :
    scanMarkersF (fuel + 1) cs pos =
      match markerMatch cs with
      | some h => (pos, h) :: scanMarkersF fuel h.after (pos + h.consumed)
      | none =>
        match cs with
        | [] => []
        | _ :: t => scanMarkersF fuel t (pos + 1) := by
  simp only [scanMarkersF]

theorem cleanedGoF_succ (fuel : Nat) (cs : List Char) (cnt : Nat) :
    cleanedGoF (fuel + 1) cs cnt =
      match markerMatch cs with
      | some h => placeholder cnt ++ cleanedGoF fuel h.after (cnt + 1)
      | none =>
        match cs with
        | [] => []
        | c :: t => c :: cleanedGoF fuel t cnt := by
  simp only [cleanedGoF]

theorem htmlGoF_succ (fuel : Nat) (cs : List Char) :
    htmlGoF (fuel + 1) cs =
      match markerMatch cs with
      | some h => htmlMarker h ++ htmlGoF fuel h.after
      | none =>
        match cs with
        | [] => []
        | c :: t => c :: htmlGoF fuel t := by
  simp only [htmlGoF]

theorem scanMarkersF_congr : ∀ (n : Nat) (cs : List Char), cs.length ≤ n →
    ∀ (f1 f2 pos : Nat), cs.length < f1 → cs.length < f2 →
      scanMarkersF f1 cs pos = scanMarkersF f2 cs pos := by
  intro n
  induction n with
  | zero =>
    intro cs hn f1 f2 pos h1 h2
    obtain ⟨a, rfl⟩ : ∃ a, f1 = a + 1 := ⟨f1 - 1, by omega⟩
    obtain ⟨b, rfl⟩ : ∃ b, f2 = b + 1 := ⟨f2 - 1, by omega⟩
    obtain rfl : cs = [] := List.length_eq_zero.mp (by omega)
    rfl
  | succ n ih =>
    intro cs hn f1 f2 pos h1 h2
    obtain ⟨a, rfl⟩ : ∃ a, f1 = a + 1 := ⟨f1 - 1, by omega⟩
    obtain ⟨b, rfl⟩ : ∃ b, f2 = b + 1 := ⟨f2 - 1, by omega⟩
    rw [scanMarkersF_succ, scanMarkersF_succ]
    cases hm : markerMatch cs with
    | some h =>
      have hlt := markerMatch_after_lt hm
      simp only
      rw [ih h.after (by omega) a b _ (by omega) (by omega)]
    | none =>
      cases cs with
      | nil => rfl
      | cons c t =>
        simp only
        rw [ih t (by simp at hn ⊢; omega) a b _ (by simp at h1 ⊢; omega)
          (by simp at h2 ⊢; omega)]

theorem scanFrom_eq (cs : List Char) (pos : Nat) :
    scanFrom cs pos =
      match markerMatch cs with
      | some h => (pos, h) :: scanFrom h.after (pos + h.consumed)
      | none =>
        match cs with
        | [] => []
        | _ :: t => scanFrom t (pos + 1) := by
  show scanMarkersF (cs.length + 1) cs pos = _
  rw [scanMarkersF_succ]
  cases hm : markerMatch cs with
  | some h =>
    have hlt := markerMatch_after_lt hm
    simp only
    rw [scanMarkersF_congr cs.length h.after (by omega) cs.length
      (h.after.length + 1) _ (by omega) (by omega)]
    rfl
  | none =>
    cases cs with
    | nil => rfl
    | cons c t => rfl

theorem cleanedGoF_congr : ∀ (n : Nat) (cs : List Char), cs.length ≤ n →
    ∀ (f1 f2 cnt : Nat), cs.length < f1 → cs.length < f2 →
      cleanedGoF f1 cs cnt = cleanedGoF f2 cs cnt := by
  intro n
  induction n with
  | zero =>
    intro cs hn f1 f2 cnt h1 h2
    obtain ⟨a, rfl⟩ : ∃ a, f1 = a + 1 := ⟨f1 - 1, by omega⟩
    obtain ⟨b, rfl⟩ : ∃ b, f2 = b + 1 := ⟨f2 - 1, by omega⟩
    obtain rfl : cs = [] := List.length_eq_zero.mp (by omega)
    rfl
  | succ n ih =>
    intro cs hn f1 f2 cnt h1 h2
    obtain ⟨a, rfl⟩ : ∃ a, f1 = a + 1 := ⟨f1 - 1, by omega⟩
    obtain ⟨b, rfl⟩ : ∃ b, f2 = b + 1 := ⟨f2 - 1, by omega⟩
    rw [cleanedGoF_succ, cleanedGoF_succ]
    cases hm : markerMatch cs with
    | some h =>
      have hlt := markerMatch_after_lt hm
      simp only
      rw [ih h.after (by omega) a b _ (by omega) (by omega)]
    | none =>
      cases cs with
      | nil => rfl
      | cons c t =>
        simp only
        rw [ih t (by simp at hn ⊢; omega) a b _ (by simp at h1 ⊢; omega)
          (by simp at h2 ⊢; omega)]

theorem cleanedGo_eq (cs : List Char) (cnt : Nat) :
    cleanedGo cs cnt =
      match markerMatch cs with
      | some h => placeholder cnt ++ cleanedGo h.after (cnt + 1)
      | none =>
        match cs with
        | [] => []
        | c :: t => c :: cleanedGo t cnt := by
  show cleanedGoF (cs.length + 1) cs cnt = _
  rw [cleanedGoF_succ]
  cases hm : markerMatch cs with
  | some h =>
    have hlt := markerMatch_after_lt hm
    simp only
    rw [cleanedGoF_congr cs.length h.after (by omega) cs.length
      (h.after.length + 1) _ (by omega) (by omega)]
    rfl
  | none =>
    cases cs with
    | nil => rfl
    | cons c t => rfl

theorem htmlGoF_congr : ∀ (n : Nat) (cs : List Char), cs.length ≤ n →
    ∀ (f1 f2 : Nat), cs.length < f1 → cs.length < f2 →
      htmlGoF f1 cs = htmlGoF f2 cs := by
  intro n
  induction n with
  | zero =>
    intro cs hn f1 f2 h1 h2
    obtain ⟨a, rfl⟩ : ∃ a, f1 = a + 1 := ⟨f1 - 1, by omega⟩
    obtain ⟨b, rfl⟩ : ∃ b, f2 = b + 1 := ⟨f2 - 1, by omega⟩
    obtain rfl : cs = [] := List.length_eq_zero.mp (by omega)
    rfl
  | succ n ih =>
    intro cs hn f1 f2 h1 h2
    obtain ⟨a, rfl⟩ : ∃ a, f1 = a + 1 := ⟨f1 - 1, by omega⟩
    obtain ⟨b, rfl⟩ : ∃ b, f2 = b + 1 := ⟨f2 - 1, by omega⟩
    rw [htmlGoF_succ, htmlGoF_succ]
    cases hm : markerMatch cs with
    | some h =>
      have hlt := markerMatch_after_lt hm
      simp only
      rw [ih h.after (by omega) a b (by omega) (by omega)]
    | none =>
      cases cs with
      | nil => rfl
      | cons c t =>
        simp only
        rw [ih t (by simp at hn ⊢; omega) a b (by simp at h1 ⊢; omega)
          (by simp at h2 ⊢; omega)]

theorem htmlGo_eq (cs : List Char) :
    htmlGo cs =
      match markerMatch cs with
      | some h => htmlMarker h ++ htmlGo h.after
      | none =>
        match cs with
        | [] => []
        | c :: t => c :: htmlGo t := by
  show htmlGoF (cs.length + 1) cs = _
  rw [htmlGoF_succ]
  cases hm : markerMatch cs with
  | some h =>
    have hlt := markerMatch_after_lt hm
    simp only
    rw [htmlGoF_congr cs.length h.after (by omega) cs.length
      (h.after.length + 1) (by omega) (by omega)]
    rfl
  | none =>
    cases cs with
    | nil => rfl
    | cons c t => rfl

/-! Scan lemmas: skipping a brace-free prefix, membership characterisation,
and sequential ids. -/

theorem scanFrom_skip_pre {pre : List Char} (hpre : ∀ c ∈ pre, c ≠ '{')
    (cs : List Char) : ∀ pos, scanFrom (pre ++ cs) pos = scanFrom cs (pos + pre.length) := by
  induction pre with
  | nil => intro pos; simp
  | cons c pre' ih =>
    intro pos
    rw [List.cons_append, scanFrom_eq,
      markerMatch_cons_ne _ (hpre c (by simp))]
    simp only
    rw [ih (fun d hd => hpre d (by simp [hd])) (pos + 1)]
    congr 1
    simp
    omega

theorem scanFrom_mem : ∀ (n : Nat) (cs : List Char), cs.length ≤ n →
    ∀ (pos p : Nat) (h : MarkerHit), (p, h) ∈ scanFrom cs pos →
      ∃ k, p = pos + k ∧ markerMatch (cs.drop k) = some h ∧
        k + h.consumed ≤ cs.length := by
  intro n
  induction n with
  | zero =>
    intro cs hn pos p h hmem
    obtain rfl : cs = [] := List.length_eq_zero.mp (by omega)
    rw [scanFrom_eq] at hmem
    simp [markerMatch_nil] at hmem
  | succ n ih =>
    intro cs hn pos p h hmem
    rw [scanFrom_eq] at hmem
    cases hm : markerMatch cs with
    | some h0 =>
      rw [hm] at hmem
      simp only [List.mem_cons] at hmem
      rcases hmem with heq | hmem
      · obtain ⟨rfl, rfl⟩ := Prod.mk.injEq .. ▸ (Prod.ext_iff.mp heq)
        exact ⟨0, by omega, by simpa using hm,
          by have := markerMatch_length hm; omega⟩
      · have hlt := markerMatch_after_lt hm
        obtain ⟨k, hk, hmk, hlen⟩ := ih h0.after (by omega) _ _ _ hmem
        refine ⟨h0.consumed + k, by omega, ?_, ?_⟩
        · rw [← List.drop_drop, markerMatch_drop hm]
          exact hmk
        · have := markerMatch_length hm
          omega
    | none =>
      rw [hm] at hmem
      cases cs with
      | nil => simp at hmem
      | cons c t =>
        simp only at hmem
        obtain ⟨k, hk, hmk, hlen⟩ := ih t (by simp at hn; omega) _ _ _ hmem
        refine ⟨k + 1, by omega, by simpa using hmk, by simp; omega⟩

theorem mkInlineMarker_id (idx pos : Nat) (h : MarkerHit) :
    (mkInlineMarker idx pos h).id = String.mk ("marker_".data ++ natDigits idx) :=
  rfl

theorem parse_markers_def (text : String) :
    (parse_inline_markers text).markers =
      (scanFrom text.data 0).enum.map (fun p => mkInlineMarker p.1 p.2.1 p.2.2) :=
  rfl

/-- C7 amended: `parse_inline_markers` records the leftmost non-overlapping
matches of `MARKER_PATTERN`, whose type group is a non-empty run of *word*
characters (`\w+`, not an arbitrary `|`/`}`-free run as the claim stated),
the value a non-empty `|`/`}`-free run, and the optional label a non-empty
`}`-free run.  For any brace-free prefix `pre`, a marker written at offset
`pre.length` is recorded as the first marker with id `marker_0`, the
lowercased type, the stripped value, the stripped label (defaulting to the
stripped value in the two-field form), and exactly that character offset;
and in general the `i`-th recorded marker carries the sequential id
`marker_<i>`. -/
theorem marker_grammar_amended_c7 :
    (∀ (pre t v l post : List Char),
      (∀ c ∈ pre, c ≠ '{') →
      t ≠ [] → (∀ c ∈ t, pyWord c = true) →
      v ≠ [] → (∀ c ∈ v, valueChar c = true) →
      l ≠ [] → (∀ c ∈ l, labelChar c = true) →
      (parse_inline_markers (String.mk
          (pre ++ '{' :: (t ++ '|' :: (v ++ '|' :: (l ++ '}' :: post)))))).markers.head? =
        some (mkInlineMarker 0 pre.length ⟨t, v, some l, post⟩))
    ∧ (∀ (pre t v post : List Char),
      (∀ c ∈ pre, c ≠ '{') →
      t ≠ [] → (∀ c ∈ t, pyWord c = true) →
      v ≠ [] → (∀ c ∈ v, valueChar c = true) →
      (parse_inline_markers (String.mk
          (pre ++ '{' :: (t ++ '|' :: (v ++ '}' :: post))))).markers.head? =
        some (mkInlineMarker 0 pre.length ⟨t, v, none, post⟩))
    ∧ (∀ text : String,
        (parse_inline_markers text).markers.map (fun m => m.id) =
          (List.range (parse_inline_markers text).markers.length).map
            (fun i => String.mk ("marker_".data ++ natDigits i))) := by
  refine ⟨?_, ?_, ?_⟩
  · intro pre t v l post hpre ht htw hv hvw hl hlw
    rw [parse_markers_def]
    have hdata : (String.mk
        (pre ++ '{' :: (t ++ '|' :: (v ++ '|' :: (l ++ '}' :: post))))).data =
        pre ++ '{' :: (t ++ '|' :: (v ++ '|' :: (l ++ '}' :: post))) := rfl
    rw [hdata, scanFrom_skip_pre hpre _ 0,
      scanFrom_eq, markerMatch_build3 ht htw hv hvw hl hlw post]
    simp [List.enum_cons]
  · intro pre t v post hpre ht htw hv hvw
    rw [parse_markers_def]
    have hdata : (String.mk (pre ++ '{' :: (t ++ '|' :: (v ++ '}' :: post)))).data =
        pre ++ '{' :: (t ++ '|' :: (v ++ '}' :: post)) := rfl
    rw [hdata, scanFrom_skip_pre hpre _ 0,
      scanFrom_eq, markerMatch_build2 ht htw hv hvw post]
    simp [List.enum_cons]
  · intro text
    rw [parse_markers_def, List.map_map, List.length_map, List.enum_length,
      ← List.enum_map_fst, List.map_map]
    rfl

/-- Witness for C7 at the text `"x: {mood|ok|fine}!"`. -/
theorem marker_grammar_amended_c7_witness :
    (parse_inline_markers (String.mk
        (("x: ").data ++ '{' :: (("mood").data ++ '|' ::
          (("ok").data ++ '|' :: (("fine").data ++ '}' :: ("!").data)))))).markers.head? =
      some (mkInlineMarker 0 ("x: ").data.length ⟨("mood").data, ("ok").data,
        some ("fine").data, ("!").data⟩) :=
  marker_grammar_amended_c7.1 ("x: ").data ("mood").data ("ok").data ("fine").data
    ("!").data (by decide) (by decide) (by decide) (by decide) (by decide)
    (by decide) (by decide)

/-! Agreement between `markerMatch` and the small-step view, and acceptance
lemmas, used to prove that `cleaned_text` carries no residual marker
syntax. -/

theorem pyWord_valueChar {c : Char} (h : pyWord c = true) : valueChar c = true := by
  by_cases h1 : c = '}'
  · subst h1; exact absurd h (by decide)
  · by_cases h2 : c = '|'
    · subst h2; exact absurd h (by decide)
    · simp [valueChar, h1, h2]

theorem valueChar_labelChar {c : Char} (h : valueChar c = true) : labelChar c = true := by
  by_cases h1 : c = '}'
  · subst h1; exact absurd h (by decide)
  · simp [labelChar, h1]

theorem valueChar_ne_brace {c : Char} (h : valueChar c = true) : c ≠ '}' := by
  intro hc; subst hc; exact absurd h (by decide)

theorem valueChar_ne_bar {c : Char} (h : valueChar c = true) : c ≠ '|' := by
  intro hc; subst hc; exact absurd h (by decide)

theorem labelChar_ne_brace {c : Char} (h : labelChar c = true) : c ≠ '}' := by
  intro hc; subst hc; exact absurd h (by decide)

theorem closeHead_cons_ne {c : Char} (t : List Char) (hc : c ≠ '}') :
    closeHead (c :: t) = false := by
  unfold closeHead
  split
  · next heq => exact absurd (List.cons.inj heq).1 hc
  · rfl

theorem vNext_cons_ne {c : Char} (t : List Char) (h1 : c ≠ '}') (h2 : c ≠ '|') :
    vNext (c :: t) = false := by
  unfold vNext
  split
  · next heq => exact absurd (List.cons.inj heq).1 h1
  · next heq => exact absurd (List.cons.inj heq).1 h2
  · rfl

theorem tNext_cons_ne {c : Char} (t : List Char) (hc : c ≠ '|') :
    tNext (c :: t) = false := by
  unfold tNext
  split
  · next heq => exact absurd (List.cons.inj heq).1 hc
  · rfl

theorem runL_eq (rest : List Char) : ∀ b, runL b rest =
    ((b || !(rest.takeWhile labelChar).isEmpty) &&
      closeHead (rest.dropWhile labelChar)) := by
  induction rest with
  | nil => intro b; simp [runL, closeHead]
  | cons a t ih =>
    intro b
    by_cases ha : a = '}'
    · subst ha
      have hlc : labelChar '}' = false := by decide
      simp [runL, List.takeWhile_cons, List.dropWhile_cons, hlc, closeHead]
    · have hlc : labelChar a = true := by simp [labelChar, ha]
      simp only [runL, if_neg ha, List.takeWhile_cons, List.dropWhile_cons, hlc,
        if_true, List.isEmpty_cons, Bool.not_false, Bool.or_true, Bool.true_and]
      rw [ih true]
      simp

theorem runV_eq (rest : List Char) : ∀ b, runV b rest =
    ((b || !(rest.takeWhile valueChar).isEmpty) &&
      vNext (rest.dropWhile valueChar)) := by
  induction rest with
  | nil => intro b; simp [runV, vNext]
  | cons a t ih =>
    intro b
    by_cases ha : a = '}'
    · subst ha
      have hvc : valueChar '}' = false := by decide
      simp [runV, List.takeWhile_cons, List.dropWhile_cons, hvc, vNext]
    · by_cases ha2 : a = '|'
      · subst ha2
        have hvc : valueChar '|' = false := by decide
        simp [runV, List.takeWhile_cons, List.dropWhile_cons, hvc, vNext]
      · have hvc : valueChar a = true := by simp [valueChar, ha, ha2]
        simp only [runV, if_neg ha, if_neg ha2, List.takeWhile_cons,
          List.dropWhile_cons, hvc, if_true, List.isEmpty_cons, Bool.not_false,
          Bool.or_true, Bool.true_and]
        rw [ih true]
        simp

theorem runT_eq (rest : List Char) : ∀ s, runT s rest =
    ((s || !(rest.takeWhile pyWord).isEmpty) &&
      tNext (rest.dropWhile pyWord)) := by
  induction rest with
  | nil => intro s; simp [runT, tNext]
  | cons a t ih =>
    intro s
    by_cases ha : pyWord a
    · simp only [runT, if_pos ha, List.takeWhile_cons, List.dropWhile_cons, ha,
        if_true, List.isEmpty_cons, Bool.not_false, Bool.or_true, Bool.true_and]
      rw [ih true]
      simp
    · have ha' : pyWord a = false := by simpa using ha
      have hwb : pyWord '|' = false := by decide
      simp only [runT, ha', Bool.false_eq_true, if_false, List.takeWhile_cons,
        List.dropWhile_cons, List.isEmpty_nil, Bool.not_true, Bool.or_false]
      by_cases ha2 : a = '|'
      · subst ha2
        cases s <;> simp [tNext]
      · have hcond : (a = '|' && s) = false := by simp [ha2]
        rw [hcond]
        simp only [Bool.false_eq_true, if_false]
        rw [tNext_cons_ne t ha2]
        simp

theorem hasMarkerAt_cons_ne {c : Char} (t : List Char) (hc : c ≠ '{') :
    hasMarkerAt (c :: t) = false := by
  unfold hasMarkerAt
  split
  · next heq => exact absurd (List.cons.inj heq).1 hc
  · rfl

/-- The small-step view accepts exactly when `markerMatch` succeeds. -/
theorem hasMarkerAt_eq_isSome (cs : List Char) :
    hasMarkerAt cs = (markerMatch cs).isSome := by
  cases cs with
  | nil => rfl
  | cons c rest =>
    by_cases hc : c = '{'
    · subst hc
      show runT false rest = _
      rw [runT_eq]
      unfold markerMatch
      simp only
      by_cases ht : (rest.takeWhile pyWord).isEmpty
      · simp [ht]
      · have ht' : (rest.takeWhile pyWord).isEmpty = false := by simpa using ht
        simp only [ht', Bool.not_false, Bool.false_or, Bool.true_and,
          Bool.false_eq_true, if_false]
        cases hd : rest.dropWhile pyWord with
        | nil => simp [tNext]
        | cons d r2 =>
          by_cases hdb : d = '|'
          · subst hdb
            show runV false r2 = _
            rw [runV_eq]
            by_cases hv : (r2.takeWhile valueChar).isEmpty
            · simp [hv]
            · have hv' : (r2.takeWhile valueChar).isEmpty = false := by simpa using hv
              simp only [hv', Bool.not_false, Bool.false_or, Bool.true_and,
                Bool.false_eq_true, if_false]
              cases hd2 : r2.dropWhile valueChar with
              | nil => simp [vNext]
              | cons d2 r3 =>
                by_cases hd2b : d2 = '}'
                · subst hd2b
                  simp [vNext]
                · by_cases hd2c : d2 = '|'
                  · subst hd2c
                    show runL false r3 = _
                    rw [runL_eq]
                    by_cases hl : (r3.takeWhile labelChar).isEmpty
                    · simp [hl]
                    · have hl' : (r3.takeWhile labelChar).isEmpty = false := by
                        simpa using hl
                      simp only [hl', Bool.not_false, Bool.false_or, Bool.true_and,
                        Bool.false_eq_true, if_false]
                      cases hd3 : r3.dropWhile labelChar with
                      | nil => simp [closeHead]
                      | cons d3 r4 =>
                        by_cases hd3b : d3 = '}'
                        · subst hd3b
                          simp [closeHead]
                        · rw [closeHead_cons_ne r4 hd3b]
                          split
                          · next heq => exact absurd (List.cons.inj heq).1 hd3b
                          · rfl
                  · rw [vNext_cons_ne r3 hd2b hd2c]
                    split
                    · next heq => exact absurd (List.cons.inj heq).1 hd2b
                    · next heq => exact absurd (List.cons.inj heq).1 hd2c
                    · rfl
          · rw [tNext_cons_ne r2 hdb]
            split
            · next heq => exact absurd (List.cons.inj heq).1 hdb
            · rfl
    · rw [hasMarkerAt_cons_ne rest hc, markerMatch_cons_ne rest hc]
      rfl

/-! Residual-match analysis for `cleaned_text`: every `{` in the output is a
copied character at which the scan failed to match, and placeholders contain
no brace and cannot extend a partial match, so a residual match in
`cleaned_text` would force a match in the original text at the same scan
position. -/

theorem runL_cons (s : Bool) (c : Char) (t : List Char) :
    runL s (c :: t) = if c = '}' then s else runL true t := rfl

theorem runV_cons (s : Bool) (c : Char) (t : List Char) :
    runV s (c :: t) =
      if c = '}' then s
      else if c = '|' then s && runL false t
      else runV true t := rfl

theorem runT_cons (s : Bool) (c : Char) (t : List Char) :
    runT s (c :: t) =
      if pyWord c then runT true t
      else if c = '|' && s then runV false t
      else false := rfl

theorem runL_all {p : List Char} (hp : ∀ c ∈ p, labelChar c = true) :
    ∀ (s : Bool) (r : List Char), runL s (p ++ r) = runL (s || !p.isEmpty) r := by
  induction p with
  | nil => intro s r; simp
  | cons a p' ih =>
    intro s r
    have ha : a ≠ '}' := by
      have := hp a (by simp)
      simp [labelChar] at this
      exact this
    rw [List.cons_append, runL_cons, if_neg ha,
      ih (fun c hc => hp c (by simp [hc])) true r]
    simp

theorem runV_all {p : List Char} (hp : ∀ c ∈ p, valueChar c = true) :
    ∀ (s : Bool) (r : List Char), runV s (p ++ r) = runV (s || !p.isEmpty) r := by
  induction p with
  | nil => intro s r; simp
  | cons a p' ih =>
    intro s r
    have ha1 : a ≠ '}' := valueChar_ne_brace (hp a (by simp))
    have ha2 : a ≠ '|' := valueChar_ne_bar (hp a (by simp))
    rw [List.cons_append, runV_cons, if_neg ha1, if_neg ha2,
      ih (fun c hc => hp c (by simp [hc])) true r]
    simp

theorem runT_all {p : List Char} (hp : ∀ c ∈ p, pyWord c = true) :
    ∀ (s : Bool) (r : List Char), runT s (p ++ r) = runT (s || !p.isEmpty) r := by
  induction p with
  | nil => intro s r; simp
  | cons a p' ih =>
    intro s r
    rw [List.cons_append, runT_cons, if_pos (hp a (by simp)),
      ih (fun c hc => hp c (by simp [hc])) true r]
    simp

/-- A position where `markerMatch` succeeds is accepted by the label run
started anywhere inside a label group. -/
theorem runL_of_match {cs : List Char} {h : MarkerHit}
    (hm : markerMatch cs = some h) : ∀ s, runL s cs = true := by
  intro s
  obtain ⟨ht, htw, hv, hvw, hcase⟩ := markerMatch_spec hm
  have hTl : ∀ c ∈ h.mtype, labelChar c = true :=
    fun c hc => valueChar_labelChar (pyWord_valueChar (htw c hc))
  have hVl : ∀ c ∈ h.mvalue, labelChar c = true :=
    fun c hc => valueChar_labelChar (hvw c hc)
  rcases hcase with ⟨l, hlab, hl, hlw, heq⟩ | ⟨hlab, heq⟩
  · rw [heq, runL_cons, if_neg (by decide), runL_all hTl, Bool.true_or,
      runL_cons, if_neg (by decide), runL_all hVl, Bool.true_or,
      runL_cons, if_neg (by decide), runL_all hlw, Bool.true_or,
      runL_cons, if_pos rfl]
  · rw [heq, runL_cons, if_neg (by decide), runL_all hTl, Bool.true_or,
      runL_cons, if_neg (by decide), runL_all hVl, Bool.true_or,
      runL_cons, if_pos rfl]

/-- A position where `markerMatch` succeeds is accepted by the value run. -/
theorem runV_of_match {cs : List Char} {h : MarkerHit}
    (hm : markerMatch cs = some h) : ∀ s, runV s cs = true := by
  intro s
  obtain ⟨ht, htw, hv, hvw, hcase⟩ := markerMatch_spec hm
  have hTv : ∀ c ∈ h.mtype, valueChar c = true :=
    fun c hc => pyWord_valueChar (htw c hc)
  have hVl : ∀ c ∈ h.mvalue, labelChar c = true :=
    fun c hc => valueChar_labelChar (hvw c hc)
  have hvne : h.mvalue.isEmpty = false := by
    cases hmv : h.mvalue with
    | nil => exact absurd hmv hv
    | cons a l => rfl
  rcases hcase with ⟨l, hlab, hl, hlw, heq⟩ | ⟨hlab, heq⟩
  · rw [heq, runV_cons, if_neg (by decide), if_neg (by decide),
      runV_all hTv, Bool.true_or, runV_cons, if_neg (by decide), if_pos rfl,
      Bool.true_and, runL_all hVl, hvne, Bool.not_false, Bool.false_or,
      runL_cons, if_neg (by decide), runL_all hlw, Bool.true_or,
      runL_cons, if_pos rfl]
  · rw [heq, runV_cons, if_neg (by decide), if_neg (by decide),
      runV_all hTv, Bool.true_or, runV_cons, if_neg (by decide), if_pos rfl,
      Bool.true_and, runL_all hVl, hvne, Bool.not_false, Bool.false_or,
      runL_cons, if_pos rfl]

theorem natDigitsF_mem : ∀ (fuel n : Nat), ∀ c ∈ natDigitsF fuel n,
    ∃ d, d < 10 ∧ c = Char.ofNat (48 + d) := by
  intro fuel
  induction fuel with
  | zero => intro n c hc; simp [natDigitsF] at hc
  | succ f ih =>
    intro n c hc
    simp only [natDigitsF] at hc
    by_cases h : n < 10
    · rw [if_pos h] at hc
      simp only [List.mem_singleton] at hc
      exact ⟨n, h, hc⟩
    · rw [if_neg h] at hc
      rw [List.mem_append] at hc
      rcases hc with hc | hc
      · exact ih _ c hc
      · simp only [List.mem_singleton] at hc
        exact ⟨n % 10, Nat.mod_lt _ (by norm_num), hc⟩

/-- No character of a `[[MARKER_marker_<k>]]` placeholder is an opening
brace. -/
theorem placeholder_no_brace (cnt : Nat) : ∀ c ∈ placeholder cnt, c ≠ '{' := by
  intro c hc
  unfold placeholder at hc
  rw [List.mem_append, List.mem_append] at hc
  have h1 : ∀ c ∈ "[[MARKER_marker_".data, c ≠ '{' := by decide
  have h3 : ∀ c ∈ "]]".data, c ≠ '{' := by decide
  rcases hc with (hc | hc) | hc
  · exact h1 c hc
  · obtain ⟨d, hd, rfl⟩ := natDigitsF_mem _ _ c hc
    interval_cases d <;> decide
  · exact h3 c hc

theorem placeholder_head (cnt : Nat) :
    placeholder cnt =
      '[' :: (("[MARKER_marker_".data ++ natDigits cnt) ++ "]]".data) := rfl

/-- Simulation: a scan position at which none of the three runs of the
pattern accepts keeps rejecting after the tail is rewritten by the
placeholder substitution. -/
theorem cleanedGo_runs : ∀ (n : Nat) (t : List Char), t.length ≤ n → ∀ cnt,
    (∀ s, runT s t = false → runT s (cleanedGo t cnt) = false) ∧
    (∀ s, runV s t = false → runV s (cleanedGo t cnt) = false) ∧
    (∀ s, runL s t = false → runL s (cleanedGo t cnt) = false) := by
  intro n
  induction n with
  | zero =>
    intro t hn cnt
    obtain rfl : t = [] := List.length_eq_zero.mp (by omega)
    exact ⟨fun s _ => rfl, fun s _ => rfl, fun s _ => rfl⟩
  | succ n ih =>
    intro t hn cnt
    cases hm : markerMatch t with
    | some h =>
      have hout : cleanedGo t cnt = placeholder cnt ++ cleanedGo h.after (cnt + 1) := by
        rw [cleanedGo_eq, hm]
      refine ⟨?_, ?_, ?_⟩
      · intro s _
        rw [hout, placeholder_head, List.cons_append]
        cases s <;> rw [runT_cons, if_neg (by decide), if_neg (by decide)]
      · intro s hs
        have := runV_of_match hm s
        rw [hs] at this
        exact absurd this (by decide)
      · intro s hs
        have := runL_of_match hm s
        rw [hs] at this
        exact absurd this (by decide)
    | none =>
      cases t with
      | nil => exact ⟨fun s _ => rfl, fun s _ => rfl, fun s _ => rfl⟩
      | cons c t2 =>
        have hout : cleanedGo (c :: t2) cnt = c :: cleanedGo t2 cnt := by
          rw [cleanedGo_eq, hm]
        have hn2 : t2.length ≤ n := by
          rw [List.length_cons] at hn
          omega
        obtain ⟨ihT, ihV, ihL⟩ := ih t2 hn2 cnt
        refine ⟨?_, ?_, ?_⟩
        · intro s hs
          rw [hout, runT_cons]
          rw [runT_cons] at hs
          by_cases hw : pyWord c
          · rw [if_pos hw] at hs ⊢
            exact ihT true hs
          · rw [if_neg hw] at hs ⊢
            by_cases hb : (c = '|' && s) = true
            · rw [if_pos hb] at hs ⊢
              exact ihV false hs
            · rw [if_neg hb]
        · intro s hs
          rw [hout, runV_cons]
          rw [runV_cons] at hs
          by_cases h1 : c = '}'
          · rw [if_pos h1] at hs ⊢
            exact hs
          · rw [if_neg h1] at hs ⊢
            by_cases h2 : c = '|'
            · rw [if_pos h2] at hs ⊢
              cases s with
              | false => rw [Bool.false_and]
              | true =>
                rw [Bool.true_and] at hs ⊢
                exact ihL false hs
            · rw [if_neg h2] at hs ⊢
              exact ihV true hs
        · intro s hs
          rw [hout, runL_cons]
          rw [runL_cons] at hs
          by_cases h1 : c = '}'
          · rw [if_pos h1] at hs ⊢
            exact hs
          · rw [if_neg h1] at hs ⊢
            exact ihL true hs

/-- No suffix of the placeholder-substituted text matches the pattern. -/
theorem cleanedGo_noResidual : ∀ (n : Nat) (t : List Char), t.length ≤ n →
    ∀ cnt i, hasMarkerAt ((cleanedGo t cnt).drop i) = false := by
  intro n
  induction n with
  | zero =>
    intro t hn cnt i
    obtain rfl : t = [] := List.length_eq_zero.mp (by omega)
    show hasMarkerAt (List.drop i []) = false
    rw [List.drop_nil]
    rfl
  | succ n ih =>
    intro t hn cnt i
    cases hm : markerMatch t with
    | some h =>
      have hout : cleanedGo t cnt = placeholder cnt ++ cleanedGo h.after (cnt + 1) := by
        rw [cleanedGo_eq, hm]
      rw [hout]
      by_cases hi : i < (placeholder cnt).length
      · rw [List.drop_append_of_le_length (by omega),
          List.drop_eq_getElem_cons hi, List.cons_append]
        exact hasMarkerAt_cons_ne _
          (placeholder_no_brace cnt _ (List.getElem_mem hi))
      · have hdec : i = (placeholder cnt).length + (i - (placeholder cnt).length) := by
          omega
        rw [hdec, List.drop_append]
        have hlt := markerMatch_after_lt hm
        exact ih h.after (by omega) (cnt + 1) _
    | none =>
      cases t with
      | nil =>
        show hasMarkerAt (List.drop i []) = false
        rw [List.drop_nil]
        rfl
      | cons c t2 =>
        have hout : cleanedGo (c :: t2) cnt = c :: cleanedGo t2 cnt := by
          rw [cleanedGo_eq, hm]
        have hn2 : t2.length ≤ n := by
          rw [List.length_cons] at hn
          omega
        rw [hout]
        cases i with
        | succ j =>
          rw [List.drop_succ_cons]
          exact ih t2 hn2 cnt j
        | zero =>
          rw [List.drop_zero]
          by_cases hc : c = '{'
          · subst hc
            have hfalse : runT false t2 = false := by
              have := hasMarkerAt_eq_isSome ('{' :: t2)
              rw [hm] at this
              exact this
            show runT false (cleanedGo t2 cnt) = false
            exact (cleanedGo_runs n t2 hn2 cnt).1 false hfalse
          · exact hasMarkerAt_cons_ne _ hc

set_option maxRecDepth 100000 in
/-- C4 counterexample: the claim also asserts that `html_text` contains no
substring matching the `\x7btype|value|label\x7d` marker grammar, but for the
input `"\x7bmood|v|\x7bab|cd\x7dx\x7d"` the value group of the matched marker
itself contains marker syntax, which the HTML substitution copies verbatim
into the `data-value` attribute and span body: at offset 90 of the produced
`html_text` the residual substring `\x7bab|cd</span>x\x7d` again matches
`MARKER_PATTERN` (type `ab`, value `cd</span>x`). -/
theorem parse_markers_html_residual_counterexample_c4 :
    markerMatch ((parse_inline_markers
        "\x7bmood|v|\x7bab|cd\x7dx\x7d").html_text.data.drop 90) =
      some ⟨"ab".data, "cd</span>x".data, none, []⟩ := rfl

/-- C4 amended: for every input text, `parse_inline_markers` returns
`marker_count` equal to the number of recorded markers; every marker's
`position` is a valid character offset into `raw_text` at which its matched
span begins (the whole span fitting inside the text); and `cleaned_text`
contains no substring matching `MARKER_PATTERN`.  The same does *not* hold of
`html_text` (see the counterexample): marker syntax nested in a value group
survives into the HTML. -/
theorem parse_markers_invariants_amended_c4 (text : String) :
    (parse_inline_markers text).marker_count =
      (parse_inline_markers text).markers.length ∧
    (∀ m ∈ (parse_inline_markers text).markers,
      m.position < (parse_inline_markers text).raw_text.length ∧
      ∃ hit : MarkerHit,
        markerMatch ((parse_inline_markers text).raw_text.data.drop m.position) =
          some hit ∧
        m.position + hit.consumed ≤ (parse_inline_markers text).raw_text.length) ∧
    (∀ i, markerMatch ((parse_inline_markers text).cleaned_text.data.drop i) = none) := by
  refine ⟨rfl, ?_, ?_⟩
  · intro m hm
    rw [parse_markers_def, List.mem_map] at hm
    obtain ⟨p, hp, rfl⟩ := hm
    have hp2 : p.2 ∈ scanFrom text.data 0 := by
      have := List.mem_map_of_mem Prod.snd hp
      rwa [List.enum_map_snd] at this
    obtain ⟨k, hk, hmk, hlen⟩ :=
      scanFrom_mem text.data.length text.data le_rfl 0 p.2.1 p.2.2
        (by rwa [Prod.mk.eta])
    have hpos : (mkInlineMarker p.1 p.2.1 p.2.2).position = p.2.1 := rfl
    have hcp := p.2.2.consumed_pos
    refine ⟨?_, p.2.2, ?_, ?_⟩
    · show (mkInlineMarker p.1 p.2.1 p.2.2).position < text.data.length
      rw [hpos]
      omega
    · show markerMatch (text.data.drop (mkInlineMarker p.1 p.2.1 p.2.2).position) =
        some p.2.2
      rw [hpos]
      have hk0 : p.2.1 = k := by omega
      rw [hk0]
      exact hmk
    · show (mkInlineMarker p.1 p.2.1 p.2.2).position + p.2.2.consumed ≤
        text.data.length
      rw [hpos]
      omega
  · intro i
    have h1 : hasMarkerAt ((cleanedGo text.data 0).drop i) = false :=
      cleanedGo_noResidual text.data.length text.data le_rfl 0 i
    have h2 := hasMarkerAt_eq_isSome ((cleanedGo text.data 0).drop i)
    rw [h1] at h2
    show markerMatch ((cleanedGo text.data 0).drop i) = none
    cases hmm2 : markerMatch ((cleanedGo text.data 0).drop i) with
    | none => rfl
    | some h =>
      rw [hmm2, Option.isSome_some] at h2
      exact absurd h2 (by decide)

set_option maxRecDepth 10000 in
/-- Witness for C4 at the text `"\x7bmood|calm\x7d"`, whose single marker sits
at offset 0. -/
theorem parse_markers_invariants_amended_c4_witness :
    (parse_inline_markers "\x7bmood|calm\x7d").marker_count =
      (parse_inline_markers "\x7bmood|calm\x7d").markers.length ∧
    (mkInlineMarker 0 0 ⟨"mood".data, "calm".data, none, []⟩).position <
      (parse_inline_markers "\x7bmood|calm\x7d").raw_text.length ∧
    (∃ hit : MarkerHit,
      markerMatch ((parse_inline_markers "\x7bmood|calm\x7d").raw_text.data.drop
          (mkInlineMarker 0 0 ⟨"mood".data, "calm".data, none, []⟩).position) =
        some hit ∧
      (mkInlineMarker 0 0 ⟨"mood".data, "calm".data, none, []⟩).position +
          hit.consumed ≤
        (parse_inline_markers "\x7bmood|calm\x7d").raw_text.length) ∧
    markerMatch ((parse_inline_markers
        "\x7bmood|calm\x7d").cleaned_text.data.drop 3) = none := by
  obtain ⟨h1, h2, h3⟩ := parse_markers_invariants_amended_c4 "\x7bmood|calm\x7d"
  have hmem : (mkInlineMarker 0 0 ⟨"mood".data, "calm".data, none, []⟩) ∈
      (parse_inline_markers "\x7bmood|calm\x7d").markers := by decide
  obtain ⟨ha, hb⟩ := h2 _ hmem
  exact ⟨h1, ha, hb, h3 3⟩

end ArtLab
